import Mathlib

/-!
# Service Manager: query compiler, label store and cascade resolver

A shallow embedding of `src/storage/postgres/labels.go` and of
`src/pkg/types/cascade/service_instance_cascade.go`.  Go strings are Lean `String`s, a
Go `[]interface{}` argument list is a `List Arg`, a Go function that can return an
`error` or panic returns a `GoResult`, and the database calls of the label store thread
an explicit state and a log of the statements issued.
-/

namespace ServiceManager

/-! ## Go-level plumbing -/

/-- Outcome of a Go call: a value, a returned `error` (its message), or a run-time panic. -/
inductive GoResult (α : Type) where
  | ok (val : α)
  | err (e : String)
  | panic
  deriving DecidableEq, Repr

/-- One element of a Go `[]interface{}` argument list as labels.go builds it: a `string`
or a `[]string`. -/
inductive Arg where
  | str (s : String)
  | strs (xs : List String)
  deriving DecidableEq, Repr

/-- Go `strings.Join(elems, sep)`. -/
def stringsJoin : List String → String → String
  | [], _ => ""
  | [a], _ => a
  | a :: b :: rest, sep => a ++ sep ++ stringsJoin (b :: rest) sep

/-- Go `strings.ToUpper(s)`: every rune is mapped by `unicode.ToUpper`.  On an ASCII rune
that is a..z to A..Z and every other rune kept (`Char.toUpper`); on a rune above ASCII it
is the case table of the Go standard library, which is not reproduced here and comes in
as the parameter `unicodeToUpper`. -/
def stringsToUpper (unicodeToUpper : Char → Char) (s : String) : String :=
  String.mk (s.data.map (fun c => if c.toNat < 128 then c.toUpper else unicodeToUpper c))

/-- The case table of `unicode.ToUpper` on the runes U+0080..U+00FF (à..ö and ø..þ to
À..Ö and Ø..Þ, ÿ to Ÿ, µ to Μ, the others kept); runes beyond that range are left as
they are here. -/
def latin1ToUpper (c : Char) : Char :=
  if (224 ≤ c.toNat ∧ c.toNat ≤ 246) ∨ (248 ≤ c.toNat ∧ c.toNat ≤ 254) then
    Char.ofNat (c.toNat - 32)
  else if c.toNat = 255 then Char.ofNat 376
  else if c.toNat = 181 then Char.ofNat 924
  else c

/-! ## Package `query` (declarations used by labels.go) -/

/-- Go `query.Operator`: a string type (labels.go converts it with `string(operator)`). -/
abbrev Operator := String

/-- Go `query.CriterionType`; labels.go only tests `option.Type == query.LabelQuery`. -/
inductive CriterionType where
  | FieldQuery
  | LabelQuery
  deriving DecidableEq, Repr

/-- Go `query.Criterion`. -/
structure Criterion where
  LeftOp : String
  Operator : Operator
  RightOp : List String
  Typ : CriterionType
  deriving DecidableEq, Repr

/-- Modelled from the spec: the constants and the two predicates of package `query` that
labels.go refers to; their declarations are not part of the sources at hand, so they are
taken as parameters.  The spec (§3) lists the operators "equals, not-equals, greater-than,
less-than, in, not-in, equals-or-nil, ..., each flagged as multi-variate and/or nullable".
With them comes the one table of the Go standard library the compiler depends on:
`UnicodeToUpper` is `unicode.ToUpper` on the runes above ASCII, used by
`strings.ToUpper` in `translateOperationToSQLEquivalent`. -/
structure QueryPkg where
  EqualsOperator : Operator
  LessThanOperator : Operator
  GreaterThanOperator : Operator
  InOperator : Operator
  NotInOperator : Operator
  EqualsOrNilOperator : Operator
  IsMultiVariate : Operator → Bool
  IsNullable : Operator → Bool
  UnicodeToUpper : Char → Char

/-- The four constants that `translateOperationToSQLEquivalent` switches on are pairwise
different operators (Go rejects a switch with duplicate constant cases). -/
def QueryPkg.DistinctCases (Q : QueryPkg) : Prop :=
  Q.LessThanOperator ≠ Q.GreaterThanOperator ∧ Q.LessThanOperator ≠ Q.NotInOperator ∧
  Q.LessThanOperator ≠ Q.EqualsOrNilOperator ∧ Q.GreaterThanOperator ≠ Q.NotInOperator ∧
  Q.GreaterThanOperator ≠ Q.EqualsOrNilOperator ∧ Q.NotInOperator ≠ Q.EqualsOrNilOperator

/-- Modelled from the spec: one concrete choice of the `query` declarations, with `in` and
`not-in` multi-variate and `equals-or-nil` nullable (spec §3, §4.1), used to evaluate the
compiler on concrete inputs.  Its case table covers the Latin-1 letters only; the concrete
runs use ASCII operator tokens, on which no table is consulted. -/
def stdQuery : QueryPkg where
  EqualsOperator := "="
  LessThanOperator := "lt"
  GreaterThanOperator := "gt"
  InOperator := "in"
  NotInOperator := "notin"
  EqualsOrNilOperator := "eqornil"
  IsMultiVariate := fun op => op == "in" || op == "notin"
  IsNullable := fun op => op == "eqornil"
  UnicodeToUpper := latin1ToUpper

/-! ## Package `sqlx` (third-party) -/

/-- Modelled from the spec: the scanning loop of `sqlx.In` (third-party library, not under
src/).  Every `?` of the query consumes the next argument; a scalar keeps its `?`, a
slice of `k` values turns its `?` into `?` followed by `k-1` times `, ?` and contributes
its `k` values ("expand each multi-value placeholder into the correct number of
individual positional markers, flattening the sequence into the argument list"). -/
def inExpand : List Char → List Arg → Except String (List Char × List Arg)
  | [], [] => .ok ([], [])
  | [], _ :: _ => .error "number of bindVars less than number arguments"
  | c :: cs, args =>
    if c = '?' then
      match args with
      | [] => .error "number of bindVars exceeds arguments"
      | a :: rest =>
        match inExpand cs rest with
        | .error e => .error e
        | .ok (q, flat) =>
          match a with
          | .str s => .ok ('?' :: q, Arg.str s :: flat)
          | .strs xs =>
            .ok ('?' :: ((List.replicate (xs.length - 1) ", ?".data).flatten ++ q),
                 xs.map Arg.str ++ flat)
    else
      match inExpand cs args with
      | .error e => .error e
      | .ok (q, flat) => .ok (c :: q, flat)

/-- Whether an argument is a slice (`asSliceForIn`). -/
def Arg.isSlice : Arg → Bool
  | .str _ => false
  | .strs _ => true

/-- Whether an argument is a slice of length 0. -/
def Arg.isEmptySlice : Arg → Bool
  | .str _ => false
  | .strs xs => xs.isEmpty

/-- Modelled from the spec: `sqlx.In(query, args...)` (third-party library, not under
src/): an empty slice argument is an error; without any slice argument the query and
the arguments are returned untouched, without parsing; otherwise the query is expanded. -/
def sqlxIn (query : String) (args : List Arg) : Except String (String × List Arg) :=
  if args.any Arg.isEmptySlice then .error "empty slice passed to 'in' query"
  else if !args.any Arg.isSlice then .ok (query, args)
  else
    match inExpand query.data args with
    | .error e => .error e
    | .ok (q, flat) => .ok (String.mk q, flat)

/-- Modelled from the spec: `sqlx.Rebind(sqlx.DOLLAR, query)` (third-party library), the
postgres rebind: the j-th `?` (counting from 1) becomes `$j` ("sequential numbering,
e.g. `$1,$2,...`"). -/
def rebindFrom : Nat → List Char → List Char
  | _, [] => []
  | j, c :: cs =>
    if c = '?' then ('$' :: (Nat.repr (j + 1)).data) ++ rebindFrom (j + 1) cs
    else c :: rebindFrom j cs

/-- Go `sqlx.ExtContext`, of which labels.go only calls `Rebind`. -/
structure ExtContext where
  Rebind : String → String

/-- The postgres handle: its bind type is DOLLAR. -/
def pgExtContext : ExtContext where
  Rebind := fun q => String.mk (rebindFrom 0 q.data)

/-! ## labels.go: the query compiler -/

/-- Go `translateOperationToSQLEquivalent`. -/
def translateOperationToSQLEquivalent (Q : QueryPkg) (operator : Operator) : String :=
  if operator = Q.LessThanOperator then "<"
  else if operator = Q.GreaterThanOperator then ">"
  else if operator = Q.NotInOperator then "NOT IN"
  else if operator = Q.EqualsOrNilOperator then "="
  else stringsToUpper Q.UnicodeToUpper operator

/-- Go `buildRightOp`; `criterion.RightOp[0]` panics (here: `none`) on an empty `RightOp`. -/
def buildRightOp (Q : QueryPkg) (criterion : Criterion) : Option (String × Arg) :=
  match criterion.RightOp with
  | [] => none
  | r0 :: _ =>
    let rightOpBindVar := "?"
    let rhs := Arg.str r0
    if Q.IsMultiVariate criterion.Operator then some ("(?)", Arg.strs criterion.RightOp)
    else some (rightOpBindVar, rhs)

/-- Go `hasMultiVariateOp`. -/
def hasMultiVariateOp (Q : QueryPkg) : List Criterion → Bool
  | [] => false
  | opt :: rest => if Q.IsMultiVariate opt.Operator then true else hasMultiVariateOp Q rest

/-- The body of the `for _, option := range criteria` loop of `buildQueryWithParams`
(lines 105-117), acting on the pair `(queries, queryParams)`. -/
def criterionStep (Q : QueryPkg) (baseTableName labelsTableName : String)
    (st : List String × List Arg) (option : Criterion) : Option (List String × List Arg) :=
  match buildRightOp Q option with
  | none => none
  | some (rightOpBindVar, rightOpQueryValue) =>
    let sqlOperation := translateOperationToSQLEquivalent Q option.Operator
    let st1 : List String × List Arg :=
      if option.Typ = CriterionType.LabelQuery then
        (st.1 ++ [labelsTableName ++ ".key = ? AND " ++ labelsTableName ++ ".val " ++
            sqlOperation ++ " " ++ rightOpBindVar],
         st.2 ++ [Arg.str option.LeftOp])
      else
        let clause := baseTableName ++ "." ++ option.LeftOp ++ " " ++ sqlOperation ++ " " ++
          rightOpBindVar
        let clause :=
          if Q.IsNullable option.Operator then
            "(" ++ clause ++ " OR " ++ baseTableName ++ "." ++ option.LeftOp ++ " IS NULL)"
          else clause
        (st.1 ++ [clause], st.2)
    some (st1.1, st1.2 ++ [rightOpQueryValue])

/-- The `for` loop of `buildQueryWithParams` over the criteria, in input order. -/
def criteriaLoop (Q : QueryPkg) (baseTableName labelsTableName : String) :
    List Criterion → List String × List Arg → Option (List String × List Arg)
  | [], st => some st
  | option :: rest, st =>
    match criterionStep Q baseTableName labelsTableName st option with
    | none => none
    | some st1 => criteriaLoop Q baseTableName labelsTableName rest st1

/-- Lines 100-119 of `buildQueryWithParams`: the query text and the argument list as they
stand before `sqlx.In` and `Rebind` (`none`: the loop panicked). -/
def assembleQuery (Q : QueryPkg) (sqlQuery baseTableName labelsTableName : String)
    (criteria : List Criterion) : Option (String × List Arg) :=
  let sqlQuery := sqlQuery ++ " WHERE "
  match criteriaLoop Q baseTableName labelsTableName criteria ([], []) with
  | none => none
  | some (queries, queryParams) =>
    some (sqlQuery ++ (stringsJoin queries " AND " ++ ";"), queryParams)

/-- Go `buildQueryWithParams`. -/
def buildQueryWithParams (Q : QueryPkg) (extContext : ExtContext)
    (sqlQuery baseTableName labelsTableName : String) (criteria : List Criterion) :
    GoResult (String × List Arg) :=
  if criteria.length = 0 then .ok (sqlQuery ++ ";", [])
  else
    match assembleQuery Q sqlQuery baseTableName labelsTableName criteria with
    | none => .panic
    | some (sqlQuery, queryParams) =>
      if hasMultiVariateOp Q criteria then
        match sqlxIn sqlQuery queryParams with
        | .error e => .err e
        | .ok (sqlQuery, queryParams) => .ok (extContext.Rebind sqlQuery, queryParams)
      else .ok (extContext.Rebind sqlQuery, queryParams)

/-! ## labels.go: the label store -/

/-- Go `query.LabelOperation` (a string type); `updateLabelsAbstract` switches on the four
declared operations and has no default case, so any other value is skipped. -/
inductive LabelOperation where
  | AddLabelOperation
  | AddLabelValuesOperation
  | RemoveLabelOperation
  | RemoveLabelValuesOperation
  | Other (name : String)
  deriving DecidableEq, Repr

/-- Go `query.LabelChange`. -/
structure LabelChange where
  Operation : LabelOperation
  Key : String
  Values : List String
  deriving DecidableEq, Repr

/-- One statement handed to the database, with what came back: an insert issued through
`create`, or a statement issued through `ExecContext`. -/
inductive Executed (L R : Type) where
  | insert (table : String) (row : L) (error : Option String)
  | exec (query : String) (args : List Arg) (outcome : Except String R)

/-- Everything labels.go calls but does not define: `uuid.NewV4` (third-party), the
`Label()` method of `Labelable`, `create`, `ExecContext` of the executor and
`checkRowsAffected`.  `σ` is the state of the database and of the outside world, `L`
the type of label rows (`Labelable`), `R` the type `sql.Result`. -/
structure LabelEnv (σ L R : Type) where
  NewV4 : σ → Except String String × σ
  Label : L → String × String × String
  create : String → L → σ → Except String Unit × σ
  ExecContext : String → List Arg → σ → Except String R × σ
  checkRowsAffected : R → Except String Unit

/-- The state threaded through the label store: the database and the statements issued
so far, oldest first. -/
structure World (σ L R : Type) where
  db : σ
  log : List (Executed L R)

/-- The call `create(ctx, db, labelTable, newLabel)`, recorded. -/
def create {σ L R : Type} (env : LabelEnv σ L R) (table : String) (row : L)
    (w : World σ L R) : Except String Unit × World σ L R :=
  match env.create table row w.db with
  | (.error err, db1) => (.error err, ⟨db1, w.log ++ [Executed.insert table row (some err)]⟩)
  | (.ok _, db1) => (.ok (), ⟨db1, w.log ++ [Executed.insert table row none]⟩)

/-- Go `execute`, applied to the closure `func() { return execer.ExecContext(ctx, query,
args...) }` that both call sites pass, recorded. -/
def execute {σ L R : Type} (env : LabelEnv σ L R) (query : String) (args : List Arg)
    (w : World σ L R) : Except String Unit × World σ L R :=
  match env.ExecContext query args w.db with
  | (.error err, db1) => (.error err, ⟨db1, w.log ++ [Executed.exec query args (.error err)]⟩)
  | (.ok result, db1) =>
    (env.checkRowsAffected result, ⟨db1, w.log ++ [Executed.exec query args (.ok result)]⟩)

/-- Go `addLabel`. -/
def addLabel {σ L R : Type} (env : LabelEnv σ L R) (newLabelFunc : String → String → String → L)
    (key : String) : List String → World σ L R → Except String Unit × World σ L R
  | [], w => (.ok (), w)
  | labelValue :: rest, w =>
    match env.NewV4 w.db with
    | (.error err, db1) =>
      (.error ("could not generate id for new label: " ++ err), ⟨db1, w.log⟩)
    | (.ok labelID, db1) =>
      let newLabel := newLabelFunc labelID key labelValue
      let labelTable := (env.Label newLabel).1
      match create env labelTable newLabel ⟨db1, w.log⟩ with
      | (.error err, w2) => (.error err, w2)
      | (.ok _, w2) => addLabel env newLabelFunc key rest w2

/-- Go `removeLabel`. -/
def removeLabel {σ L R : Type} (env : LabelEnv σ L R) (labelable : L)
    (referenceID labelKey : String) (labelValues : List String) (w : World σ L R) :
    Except String Unit × World σ L R :=
  let labelTableName := (env.Label labelable).1
  let referenceColumnName := (env.Label labelable).2.1
  let baseQuery := "DELETE FROM " ++ labelTableName ++ " WHERE key=$1 AND " ++
    referenceColumnName ++ "=$2"
  let labelValuesCount := labelValues.length
  if labelValuesCount = 0 then
    execute env baseQuery [Arg.str labelKey, Arg.str referenceID] w
  else
    let args := labelValues.foldl (fun args val => args ++ [Arg.str val])
      [Arg.str labelKey, Arg.str referenceID]
    let baseQuery := baseQuery ++ " AND val IN ($3)"
    match sqlxIn baseQuery args with
    | .error err => (.error err, w)
    | .ok (sqlQuery, queryParams) => execute env sqlQuery queryParams w

/-- The `switch action.Operation` of `updateLabelsAbstract` (lines 35-49) for one action. -/
def applyAction {σ L R : Type} (env : LabelEnv σ L R)
    (newLabelFunc : String → String → String → L) (referenceID : String)
    (action : LabelChange) (w : World σ L R) : Except String Unit × World σ L R :=
  match action.Operation with
  | .AddLabelOperation | .AddLabelValuesOperation =>
    addLabel env newLabelFunc action.Key action.Values w
  | .RemoveLabelOperation | .RemoveLabelValuesOperation =>
    let pgLabel := newLabelFunc "" "" ""
    removeLabel env pgLabel referenceID action.Key action.Values w
  | .Other _ => (.ok (), w)

/-- Go `updateLabelsAbstract`. -/
def updateLabelsAbstract {σ L R : Type} (env : LabelEnv σ L R)
    (newLabelFunc : String → String → String → L) (referenceID : String) :
    List LabelChange → World σ L R → Except String Unit × World σ L R
  | [], w => (.ok (), w)
  | action :: rest, w =>
    match applyAction env newLabelFunc referenceID action w with
    | (.error err, w1) => (.error err, w1)
    | (.ok _, w1) => updateLabelsAbstract env newLabelFunc referenceID rest w1

/-- The error the database reported for a statement, if any: the error of `create`, the
error of `ExecContext`, or the error of the check on the rows affected. -/
def reportedError {σ L R : Type} (env : LabelEnv σ L R) : Executed L R → Option String
  | .insert _ _ error => error
  | .exec _ _ (.error err) => some err
  | .exec _ _ (.ok result) =>
    match env.checkRowsAffected result with
    | .error err => some err
    | .ok _ => none

/-- A label row as the row factory of a label type builds it. -/
structure LabelRow where
  ID : String
  Key : String
  Val : String
  deriving DecidableEq, Repr

/-- A scripted environment for concrete runs: the state is the list of outcomes (`none`:
success) still to be handed out, one per call of `NewV4`, `create` or `ExecContext`;
past the end of the script every call succeeds.  Label rows live in table `labels`
with reference column `ref_id`; a result is its number of rows affected, and the check
on the rows affected never fails (spec §7: zero rows affected is not an error). -/
def scriptedEnv : LabelEnv (List (Option String)) LabelRow Nat where
  NewV4 := fun st =>
    match st with
    | some err :: rest => (.error err, rest)
    | none :: rest => (.ok "id", rest)
    | [] => (.ok "id", [])
  Label := fun _ => ("labels", "ref_id", "id")
  create := fun _ _ st =>
    match st with
    | some err :: rest => (.error err, rest)
    | none :: rest => (.ok (), rest)
    | [] => (.ok (), [])
  ExecContext := fun _ _ st =>
    match st with
    | some err :: rest => (.error err, rest)
    | none :: rest => (.ok 1, rest)
    | [] => (.ok 1, [])
  checkRowsAffected := fun _ => .ok ()

/-- The row factory of the concrete runs. -/
def newLabelRow (labelID labelKey labelValue : String) : LabelRow :=
  ⟨labelID, labelKey, labelValue⟩

/-! ## The compiler as the spec words it (§4.1) -/

/-- Spec §4.1: the right-operand placeholder, "a single positional marker for
single-valued operators, or a parenthesized multi-value marker for multi-variate
operators". -/
def specPlaceholder (Q : QueryPkg) (c : Criterion) : String :=
  if Q.IsMultiVariate c.Operator then "(?)" else "?"

/-- Spec §4.1: the placeholder after expansion: a multi-value marker over `n` values has
become `n` individual positional markers, `(?, ..., ?)`. -/
def specExpandedPlaceholder (Q : QueryPkg) (c : Criterion) : String :=
  if Q.IsMultiVariate c.Operator then
    "(" ++ stringsJoin (List.replicate c.RightOp.length "?") ", " ++ ")"
  else "?"

/-- Spec §4.1: the clause of a criterion before any nullable wrapping, for a given
right-operand placeholder. -/
def plainClauseWith (placeholder : String) (Q : QueryPkg) (baseTable labelTable : String)
    (c : Criterion) : String :=
  match c.Typ with
  | .LabelQuery =>
    labelTable ++ ".key = ? AND " ++ labelTable ++ ".val " ++
      translateOperationToSQLEquivalent Q c.Operator ++ " " ++ placeholder
  | .FieldQuery =>
    baseTable ++ "." ++ c.LeftOp ++ " " ++ translateOperationToSQLEquivalent Q c.Operator ++
      " " ++ placeholder

/-- Spec §4.1: the clause of a criterion before any nullable wrapping. -/
def specPlainClause (Q : QueryPkg) (baseTable labelTable : String) (c : Criterion) : String :=
  plainClauseWith (specPlaceholder Q c) Q baseTable labelTable c

/-- Spec §4.1: the nullable wrapping `(<clause> OR <baseTable>.<field> IS NULL)`. -/
def specWrap (baseTable : String) (c : Criterion) (clause : String) : String :=
  "(" ++ clause ++ " OR " ++ baseTable ++ "." ++ c.LeftOp ++ " IS NULL)"

/-- Spec §4.1: the clause emitted for a criterion, for a given placeholder: wrapped when
the criterion is a FieldQuery with a nullable operator. -/
def clauseWith (placeholder : String) (Q : QueryPkg) (baseTable labelTable : String)
    (c : Criterion) : String :=
  if c.Typ = CriterionType.FieldQuery ∧ Q.IsNullable c.Operator = true then
    specWrap baseTable c (plainClauseWith placeholder Q baseTable labelTable c)
  else plainClauseWith placeholder Q baseTable labelTable c

/-- Spec §4.1: the clause emitted for a criterion. -/
def specClause (Q : QueryPkg) (baseTable labelTable : String) (c : Criterion) : String :=
  clauseWith (specPlaceholder Q c) Q baseTable labelTable c

/-- Spec §4.1: the clause of a criterion after the multi-value expansion. -/
def specExpandedClause (Q : QueryPkg) (baseTable labelTable : String) (c : Criterion) :
    String :=
  clauseWith (specExpandedPlaceholder Q c) Q baseTable labelTable c

/-- Spec §4.1: the arguments a criterion contributes before expansion: the label key for
a LabelQuery, then the right operand (the whole sequence for a multi-variate operator,
the first value otherwise). -/
def specArgs (Q : QueryPkg) (c : Criterion) : List Arg :=
  (if c.Typ = CriterionType.LabelQuery then [Arg.str c.LeftOp] else []) ++
    (if Q.IsMultiVariate c.Operator then [Arg.strs c.RightOp]
     else (c.RightOp.take 1).map Arg.str)

/-- Spec §4.1: the arguments a criterion contributes after expansion (flattened). -/
def specFlatArgs (Q : QueryPkg) (c : Criterion) : List Arg :=
  ((if c.Typ = CriterionType.LabelQuery then [c.LeftOp] else []) ++
    (if Q.IsMultiVariate c.Operator then c.RightOp else c.RightOp.take 1)).map Arg.str

/-! ## Auxiliary definitions for the proofs -/

/-- Prefix the text and the arguments of a successful expansion. -/
def okMap (p : List Char) (pre : List Arg) :
    Except String (List Char × List Arg) → Except String (List Char × List Arg)
  | .error e => .error e
  | .ok (q, flat) => .ok (p ++ q, pre ++ flat)

/-- A text without positional marker. -/
def NoMark (s : String) : Prop := '?' ∉ s.data

instance (s : String) : Decidable (NoMark s) := by unfold NoMark; infer_instance

/-- The text a criterion splices into its clause besides the markers is free of `?`: the
base table name and the field name for a FieldQuery, the label table name for a
LabelQuery, and the SQL translation of the operator. -/
def MarkFree (Q : QueryPkg) (baseTable labelTable : String) (c : Criterion) : Prop :=
  (c.Typ = CriterionType.FieldQuery → NoMark baseTable ∧ NoMark c.LeftOp) ∧
    (c.Typ = CriterionType.LabelQuery → NoMark labelTable) ∧
    NoMark (translateOperationToSQLEquivalent Q c.Operator)

instance (Q : QueryPkg) (baseTable labelTable : String) (c : Criterion) :
    Decidable (MarkFree Q baseTable labelTable c) := by
  unfold MarkFree; infer_instance

/-- The flattening `sqlx.In` applies to an argument list: a slice contributes its values. -/
def flattenArgs : List Arg → List Arg
  | [] => []
  | Arg.str s :: rest => Arg.str s :: flattenArgs rest
  | Arg.strs xs :: rest => xs.map Arg.str ++ flattenArgs rest

/-- No statement of the list reported an error. -/
def Clean {σ L R : Type} (env : LabelEnv σ L R) (entries : List (Executed L R)) : Prop :=
  ∀ x ∈ entries, reportedError env x = none

/-- The statements of a failed action: the last one reported the error `e` and the ones
before it none, or none reported an error and `e` is the identifier generation message. -/
def FailsBy {σ L R : Type} (env : LabelEnv σ L R) (e : String)
    (entries : List (Executed L R)) : Prop :=
  (∃ before last, entries = before ++ [last] ∧ Clean env before ∧
      reportedError env last = some e) ∨
    (Clean env entries ∧ ∃ err, e = "could not generate id for new label: " ++ err)

/-- What an action did, in terms of the statements it added to the log. -/
def Traced {σ L R : Type} (env : LabelEnv σ L R) (w : World σ L R)
    (out : Except String Unit × World σ L R) : Prop :=
  ∃ entries, out.2.log = w.log ++ entries ∧
    (out.1 = .ok () → Clean env entries) ∧ (∀ e, out.1 = .error e → FailsBy env e entries)

/-! ## The label store: instrumentation and a concrete store -/

/-- An environment with a counter of the identifiers generated: `NewV4` advances the
counter, every other call leaves it alone; apart from the counter it is `env`. -/
def countingEnv {σ L R : Type} (env : LabelEnv σ L R) : LabelEnv (σ × Nat) L R where
  NewV4 := fun s => ((env.NewV4 s.1).1, ((env.NewV4 s.1).2, s.2 + 1))
  Label := env.Label
  create := fun table row s => ((env.create table row s.1).1, ((env.create table row s.1).2, s.2))
  ExecContext := fun query args s =>
    ((env.ExecContext query args s.1).1, ((env.ExecContext query args s.1).2, s.2))
  checkRowsAffected := env.checkRowsAffected

/-- The successful inserts of the rows built by the row factory from the generated
identifiers, the action key and the values, each into the label table of its row. -/
def insertsOf {σ L R : Type} (env : LabelEnv σ L R) (newLabelFunc : String → String → String → L)
    (key : String) (ids values : List String) : List (Executed L R) :=
  List.zipWith (fun id value =>
    Executed.insert (env.Label (newLabelFunc id key value)).1 (newLabelFunc id key value) none)
    ids values

/-- Go `sql.Result`, of which only `RowsAffected()` matters here. -/
structure SqlResult where
  RowsAffected : Except String Int

/-- Modelled from the spec: `checkRowsAffected(ctx, result)`, which `execute` calls and
which is not under src/.  Spec §4.2: "every mutating statement's affected-row count is
inspected; zero rows affected from a delete is not an error (idempotent no-op)"; §7: "no
error is swallowed except the zero-rows-affected case", so a failure to read the count is
passed on. -/
def specCheckRowsAffected (result : SqlResult) : Except String Unit :=
  match result.RowsAffected with
  | .error err => .error err
  | .ok _ => .ok ()

/-- A stored label row: identifier, key, value and owning-entity reference (spec §3). -/
structure StoredLabel where
  ID : String
  Key : String
  Val : String
  Ref : String
  deriving DecidableEq, Repr

/-- A label table `labels` with reference column `ref_id`, and the number of
identifiers handed out so far. -/
structure Store where
  rows : List StoredLabel
  nextID : Nat
  deriving DecidableEq, Repr

/-- Whether a row is the label `(referenceID, key, value)`. -/
def StoredLabel.isLabel (referenceID key value : String) (row : StoredLabel) : Bool :=
  row.Ref == referenceID && row.Key == key && row.Val == value

/-- Whether the store holds a label row for `(referenceID, key, value)`. -/
def Store.hasRow (s : Store) (referenceID key value : String) : Bool :=
  s.rows.any (StoredLabel.isLabel referenceID key value)

/-- Modelled from the spec: the store behind the label store, with the parts of this
repository that are not under src/ (`create`, `checkRowsAffected`) and the datastore
itself.  `create` inserts the row unless the label `(reference, key, value)` is already
there (spec §3: duplicates are rejected); the two DELETE statements of `removeLabel`
remove the rows of the key and reference (and value) and report the number of rows
removed; a statement with more arguments than markers, or any other text, is a hard
failure; identifiers are fresh; zero rows affected is not an error. -/
def storeEnv : LabelEnv Store StoredLabel SqlResult where
  NewV4 := fun s => (.ok ("id-" ++ Nat.repr s.nextID), { s with nextID := s.nextID + 1 })
  Label := fun _ => ("labels", "ref_id", "id")
  create := fun _ row s =>
    if s.hasRow row.Ref row.Key row.Val then (.error "duplicate label", s)
    else (.ok (), { s with rows := s.rows ++ [row] })
  ExecContext := fun query args s =>
    if query = "DELETE FROM labels WHERE key=$1 AND ref_id=$2" then
      match args with
      | [Arg.str key, Arg.str ref] =>
        (.ok ⟨.ok ((s.rows.filter (fun r => r.Key == key && r.Ref == ref)).length : Int)⟩,
         { s with rows := s.rows.filter (fun r => !(r.Key == key && r.Ref == ref)) })
      | _ => (.error "wrong number of arguments", s)
    else if query = "DELETE FROM labels WHERE key=$1 AND ref_id=$2 AND val IN ($3)" then
      match args with
      | [Arg.str key, Arg.str ref, Arg.str value] =>
        (.ok ⟨.ok ((s.rows.filter (StoredLabel.isLabel ref key value)).length : Int)⟩,
         { s with rows := s.rows.filter (fun r => !(StoredLabel.isLabel ref key value r)) })
      | _ => (.error "wrong number of arguments", s)
    else (.error "unsupported statement", s)
  checkRowsAffected := specCheckRowsAffected

/-- The row factory of an entity: the label rows it builds refer to `referenceID`. -/
def newStoredLabel (referenceID labelID labelKey labelValue : String) : StoredLabel :=
  ⟨labelID, labelKey, labelValue, referenceID⟩

/-! ## service_instance_cascade.go -/

/-- Modelled from the spec: `query.ByField` (package `query`, not under src/): a
FieldQuery criterion with the given operator, field name and right-operand values
(spec §4.3: "a FieldQuery Criterion `<foreignKeyField> = parent.ID`"). -/
def ByField (operator : Operator) (leftOp : String) (rightOp : List String) : Criterion :=
  ⟨leftOp, operator, rightOp, CriterionType.FieldQuery⟩

/-- Modelled from the spec: `query.ByLabel` (package `query`, not under src/): a
LabelQuery criterion with the given operator, label key and right-operand values
(spec §4.3: "a LabelQuery Criterion: key = the declared label key, operator = equals,
value = parent.ID"). -/
def ByLabel (operator : Operator) (leftOp : String) (rightOp : List String) : Criterion :=
  ⟨leftOp, operator, rightOp, CriterionType.LabelQuery⟩

/-- Go `types.ObjectType`. -/
abbrev ObjectType := String

/-- Modelled from the spec: the two object type constants of package `types` that
service_instance_cascade.go refers to; their declarations are not under src/, so they
are taken as parameters. -/
structure TypesPkg where
  ServiceBindingType : ObjectType
  ServiceInstanceType : ObjectType

/-- Go `types.ServiceInstance`, of which the cascade only reads `ID`. -/
structure ServiceInstance where
  ID : String
  deriving DecidableEq, Repr

/-- Go `ServiceInstanceCascade`: the embedded instance and the parent label key. -/
structure ServiceInstanceCascade where
  Instance : ServiceInstance
  parentInstanceLabelKey : String
  deriving DecidableEq, Repr

/-- Go `ChildrenCriterion`, a `map[types.ObjectType][]query.Criterion`: the entry of an
object type, if there is one. -/
abbrev ChildrenCriterion := ObjectType → Option (List Criterion)

/-- The Go map assignment `m[key] = value`. -/
def mapSet (m : ChildrenCriterion) (key : ObjectType) (value : List Criterion) :
    ChildrenCriterion :=
  fun t => if t = key then some value else m t

/-- Go `(*ServiceInstanceCascade).GetChildrenCriterion`; `len(s) > 0` holds exactly when
the string is not empty. -/
def GetChildrenCriterion (T : TypesPkg) (Q : QueryPkg) (si : ServiceInstanceCascade) :
    ChildrenCriterion :=
  let criterion : ChildrenCriterion :=
    mapSet (fun _ => none) T.ServiceBindingType
      [ByField Q.EqualsOperator "service_instance_id" [si.Instance.ID]]
  if si.parentInstanceLabelKey.length > 0 then
    mapSet criterion T.ServiceInstanceType
      [ByLabel Q.EqualsOperator si.parentInstanceLabelKey [si.Instance.ID]]
  else criterion

/-- One concrete choice of the two object types, for concrete runs. -/
def stdTypes : TypesPkg where
  ServiceBindingType := "ServiceBinding"
  ServiceInstanceType := "ServiceInstance"

/-! ## Positional markers -/

/-- The pieces of a text between its `?` markers, in order. -/
def splitMarks : List Char → List (List Char)
  | [] => [[]]
  | c :: cs =>
    if c = '?' then [] :: splitMarks cs
    else
      match splitMarks cs with
      | p :: ps => (c :: p) :: ps
      | [] => [[c]]

/-- The pieces put together again with the markers `$j+1`, `$j+2`, ... between them:
sequential numbering in order of appearance. -/
def numbered (j : Nat) : List (List Char) → List Char
  | [] => []
  | [p] => p
  | p :: q :: rest => p ++ ('$' :: (Nat.repr (j + 1)).data) ++ numbered (j + 1) (q :: rest)

/-- A text without `$`. -/
def NoDollar (s : String) : Prop := '$' ∉ s.data

instance (s : String) : Decidable (NoDollar s) := by unfold NoDollar; infer_instance

/-- The text a criterion splices into its clause is free of `$`: the base table name and
the field name for a FieldQuery, the label table name for a LabelQuery, and the SQL
translation of the operator. -/
def DollarFree (Q : QueryPkg) (baseTable labelTable : String) (c : Criterion) : Prop :=
  (c.Typ = CriterionType.FieldQuery → NoDollar baseTable ∧ NoDollar c.LeftOp) ∧
    (c.Typ = CriterionType.LabelQuery → NoDollar labelTable) ∧
    NoDollar (translateOperationToSQLEquivalent Q c.Operator)

instance (Q : QueryPkg) (baseTable labelTable : String) (c : Criterion) :
    Decidable (DollarFree Q baseTable labelTable c) := by
  unfold DollarFree; infer_instance

/-- The positional markers of a postgres query, in order of appearance: for every `$`
that is followed by digits, these digits. -/
def readMarkers : List Char → List (List Char)
  | [] => []
  | c :: cs =>
    if c = '$' then
      if cs.takeWhile Char.isDigit = [] then readMarkers cs
      else cs.takeWhile Char.isDigit :: readMarkers cs
    else readMarkers cs

/-- Whether every `?` of a text is followed by a character that is no digit, or by
nothing. -/
def marksFollowed : List Char → Bool
  | [] => true
  | c :: cs =>
    (if c = '?' then
      match cs with
      | [] => true
      | d :: _ => !d.isDigit
     else true) && marksFollowed cs

/-- A piece of text that is empty or begins with a character that is no digit. -/
def StartsPlain (p : List Char) : Prop :=
  p = [] ∨ ∃ d rest, p = d :: rest ∧ d.isDigit = false

/-! ## Helper lemmas: the loop -/

theorem criterionStep_eq (Q : QueryPkg) (baseTable labelTable : String)
    (st : List String × List Arg) (c : Criterion) (h : c.RightOp ≠ []) :
    criterionStep Q baseTable labelTable st c =
      some (st.1 ++ [specClause Q baseTable labelTable c], st.2 ++ specArgs Q c) := by
  obtain ⟨l, o, r, t⟩ := c
  cases r with
  | nil => exact absurd rfl h
  | cons r0 rs =>
    cases t <;> by_cases hm : Q.IsMultiVariate o = true <;>
      by_cases hn : Q.IsNullable o = true <;>
      simp [criterionStep, buildRightOp, specClause, clauseWith, plainClauseWith, specWrap,
        specArgs, specPlaceholder, hm, hn]

theorem criteriaLoop_eq (Q : QueryPkg) (baseTable labelTable : String) :
    ∀ (criteria : List Criterion) (st : List String × List Arg),
      (∀ c ∈ criteria, c.RightOp ≠ []) →
      criteriaLoop Q baseTable labelTable criteria st =
        some (st.1 ++ criteria.map (specClause Q baseTable labelTable),
              st.2 ++ (criteria.map (specArgs Q)).flatten)
  | [], st, _ => by simp [criteriaLoop]
  | c :: rest, st, h => by
    have hc : c.RightOp ≠ [] := h c (List.mem_cons_self _ _)
    have hr : ∀ d ∈ rest, d.RightOp ≠ [] := fun d hd => h d (List.mem_cons_of_mem _ hd)
    simp [criteriaLoop, criterionStep_eq Q baseTable labelTable st c hc,
      criteriaLoop_eq Q baseTable labelTable rest _ hr]

theorem assembleQuery_eq (Q : QueryPkg) (sqlQuery baseTable labelTable : String)
    (criteria : List Criterion) (h : ∀ c ∈ criteria, c.RightOp ≠ []) :
    assembleQuery Q sqlQuery baseTable labelTable criteria =
      some (sqlQuery ++ " WHERE " ++
              (stringsJoin (criteria.map (specClause Q baseTable labelTable)) " AND " ++ ";"),
            (criteria.map (specArgs Q)).flatten) := by
  simp [assembleQuery, criteriaLoop_eq Q baseTable labelTable criteria _ h]

theorem specWrap_ne (baseTable : String) (c : Criterion) (clause : String) :
    specWrap baseTable c clause ≠ clause := by
  intro h
  have hl := congrArg String.length h
  simp only [specWrap, String.length_append] at hl
  have h1 : "(".length = 1 := by decide
  omega

theorem criterionStep_eqOrNil (Q : QueryPkg) (baseTable labelTable : String)
    (st : List String × List Arg) (field V : String) (hD : Q.DistinctCases)
    (hN : Q.IsNullable Q.EqualsOrNilOperator = true)
    (hS : Q.IsMultiVariate Q.EqualsOrNilOperator = false) :
    criterionStep Q baseTable labelTable st
        ⟨field, Q.EqualsOrNilOperator, [V], CriterionType.FieldQuery⟩ =
      some (st.1 ++ ["(" ++ baseTable ++ "." ++ field ++ " = ? OR " ++ baseTable ++ "." ++
              field ++ " IS NULL)"], st.2 ++ [Arg.str V]) := by
  obtain ⟨h1, h2, h3, h4, h5, h6⟩ := hD
  have e1 : Q.EqualsOrNilOperator ≠ Q.LessThanOperator := fun h => h3 h.symm
  have e2 : Q.EqualsOrNilOperator ≠ Q.GreaterThanOperator := fun h => h5 h.symm
  have e3 : Q.EqualsOrNilOperator ≠ Q.NotInOperator := fun h => h6 h.symm
  simp only [criterionStep, buildRightOp, translateOperationToSQLEquivalent, hN, hS, e1, e2,
    e3, if_false, if_true, Bool.false_eq_true]
  simp only [reduceCtorEq, if_false, Option.some.injEq, Prod.mk.injEq, and_true,
    List.append_cancel_left_eq, List.cons.injEq]
  apply String.ext
  simp only [String.data_append, List.append_assoc]
  rfl

/-! ## Helper lemmas: the expansion of `sqlx.In` -/

theorem okMap_okMap (p q : List Char) (a b : List Arg)
    (r : Except String (List Char × List Arg)) :
    okMap p a (okMap q b r) = okMap (p ++ q) (a ++ b) r := by
  cases r with
  | error e => rfl
  | ok x => obtain ⟨x1, x2⟩ := x; simp [okMap]

theorem okMap_nil (r : Except String (List Char × List Arg)) : okMap [] [] r = r := by
  cases r with
  | error e => rfl
  | ok x => obtain ⟨x1, x2⟩ := x; simp [okMap]

theorem inExpand_cons_ne (c : Char) (hc : c ≠ '?') (t : List Char) (ta : List Arg) :
    inExpand (c :: t) ta = okMap [c] [] (inExpand t ta) := by
  cases h : inExpand t ta with
  | error e => simp [inExpand, hc, h, okMap]
  | ok x => obtain ⟨x1, x2⟩ := x; simp [inExpand, hc, h, okMap]

theorem inExpand_noq_append :
    ∀ (p : List Char), '?' ∉ p → ∀ (t : List Char) (ta : List Arg),
      inExpand (p ++ t) ta = okMap p [] (inExpand t ta)
  | [], _, t, ta => by rw [okMap_nil, List.nil_append]
  | c :: p, hp, t, ta => by
    have hc : c ≠ '?' := fun h => hp (h ▸ List.mem_cons_self _ _)
    have hp2 : '?' ∉ p := fun h => hp (List.mem_cons_of_mem _ h)
    rw [List.cons_append, inExpand_cons_ne c hc, inExpand_noq_append p hp2 t ta, okMap_okMap]
    rfl

theorem inExpand_mark_str (t : List Char) (s : String) (ta : List Arg) :
    inExpand ('?' :: t) (Arg.str s :: ta) = okMap ['?'] [Arg.str s] (inExpand t ta) := by
  simp only [inExpand, if_true]
  cases inExpand t ta with
  | error e => rfl
  | ok x => obtain ⟨x1, x2⟩ := x; simp [okMap]

theorem inExpand_mark_strs (t : List Char) (xs : List String) (ta : List Arg) :
    inExpand ('?' :: t) (Arg.strs xs :: ta) =
      okMap ('?' :: (List.replicate (xs.length - 1) ", ?".data).flatten) (xs.map Arg.str)
        (inExpand t ta) := by
  simp only [inExpand, if_true]
  cases inExpand t ta with
  | error e => rfl
  | ok x => obtain ⟨x1, x2⟩ := x; simp [okMap]

theorem stringsJoin_replicate_data (k : Nat) :
    (stringsJoin (List.replicate (k + 1) "?") ", ").data =
      '?' :: (List.replicate k ", ?".data).flatten := by
  induction k with
  | zero => rfl
  | succ k ih =>
    have e : List.replicate (k + 1 + 1) "?" = "?" :: "?" :: List.replicate k "?" := rfl
    have e2 : List.replicate (k + 1) "?" = "?" :: List.replicate k "?" := rfl
    rw [e, stringsJoin, ← e2, String.data_append, String.data_append, ih,
      List.replicate_succ, List.flatten_cons]
    rfl

theorem count_marks_replicate (k : Nat) :
    ((List.replicate k ", ?".data).flatten).count '?' = k := by
  induction k with
  | zero => rfl
  | succ k ih =>
    have e : (", ?".data).count '?' = 1 := by decide
    rw [List.replicate_succ, List.flatten_cons, List.count_append, ih, e]
    omega

theorem inExpand_clause (Q : QueryPkg) (baseTable labelTable : String) (c : Criterion)
    (hc : MarkFree Q baseTable labelTable c)
    (hR : c.RightOp ≠ []) (t : List Char) (ta : List Arg) :
    inExpand ((specClause Q baseTable labelTable c).data ++ t) (specArgs Q c ++ ta) =
      okMap (specExpandedClause Q baseTable labelTable c).data (specFlatArgs Q c)
        (inExpand t ta) := by
  obtain ⟨l, o, r, ty⟩ := c
  obtain ⟨hf, hl, ho⟩ := hc
  unfold NoMark at hf hl ho
  simp only at hf hl ho hR
  cases r with
  | nil => exact absurd rfl hR
  | cons r0 rs =>
    cases ty
    · obtain ⟨hb, hf2⟩ := hf rfl
      by_cases hm : Q.IsMultiVariate o = true <;> by_cases hn : Q.IsNullable o = true <;>
      simp [specClause, specExpandedClause, clauseWith, plainClauseWith, specWrap,
        specPlaceholder, specExpandedPlaceholder, specArgs, specFlatArgs, hm, hn,
        String.data_append, inExpand_noq_append _ hb,
        inExpand_noq_append _ hf2, inExpand_noq_append _ ho, inExpand_cons_ne,
        inExpand_mark_str, inExpand_mark_strs, okMap_okMap, stringsJoin_replicate_data]
    · have hl2 := hl rfl
      by_cases hm : Q.IsMultiVariate o = true <;>
      simp [specClause, specExpandedClause, clauseWith, plainClauseWith, specWrap,
        specPlaceholder, specExpandedPlaceholder, specArgs, specFlatArgs, hm,
        String.data_append, inExpand_noq_append _ hl2,
        inExpand_noq_append _ ho, inExpand_cons_ne,
        inExpand_mark_str, inExpand_mark_strs, okMap_okMap, stringsJoin_replicate_data]

theorem inExpand_join (Q : QueryPkg) (baseTable labelTable : String) :
    ∀ (criteria : List Criterion),
      (∀ c ∈ criteria, c.RightOp ≠ [] ∧ MarkFree Q baseTable labelTable c) →
      ∀ (t : List Char) (ta : List Arg),
        inExpand ((stringsJoin (criteria.map (specClause Q baseTable labelTable)) " AND ").data
            ++ t) ((criteria.map (specArgs Q)).flatten ++ ta) =
          okMap (stringsJoin (criteria.map (specExpandedClause Q baseTable labelTable))
              " AND ").data (criteria.map (specFlatArgs Q)).flatten (inExpand t ta)
  | [], _, t, ta => by
    simp only [List.map_nil, stringsJoin, List.flatten_nil, List.nil_append, okMap_nil]
  | [c], h, t, ta => by
    have hc := h c (List.mem_cons_self _ _)
    simp only [List.map_cons, List.map_nil, stringsJoin, List.flatten_cons, List.flatten_nil,
      List.append_nil]
    exact inExpand_clause Q baseTable labelTable c hc.2 hc.1 t ta
  | c :: d :: rest, h, t, ta => by
    have hc := h c (List.mem_cons_self _ _)
    have hr : ∀ e ∈ d :: rest, e.RightOp ≠ [] ∧ MarkFree Q baseTable labelTable e :=
      fun e he => h e (List.mem_cons_of_mem _ he)
    have ih := inExpand_join Q baseTable labelTable (d :: rest) hr t ta
    have hand : '?' ∉ " AND ".data := by decide
    simp only [List.map_cons, stringsJoin, List.flatten_cons, String.data_append,
      List.append_assoc] at ih ⊢
    rw [inExpand_clause Q baseTable labelTable c hc.2 hc.1,
      inExpand_noq_append _ hand, ih, okMap_okMap, okMap_okMap]
    simp only [List.append_nil, List.append_assoc]

theorem any_isEmptySlice_specArgs (Q : QueryPkg) :
    ∀ (criteria : List Criterion), (∀ c ∈ criteria, c.RightOp ≠ []) →
      ((criteria.map (specArgs Q)).flatten).any Arg.isEmptySlice = false
  | [], _ => rfl
  | c :: rest, h => by
    have hc := h c (List.mem_cons_self _ _)
    have ih := any_isEmptySlice_specArgs Q rest (fun e he => h e (List.mem_cons_of_mem _ he))
    obtain ⟨l, o, r, ty⟩ := c
    cases r with
    | nil => exact absurd rfl hc
    | cons r0 rs =>
      cases ty <;> by_cases hm : Q.IsMultiVariate o = true <;>
        simp [specArgs, hm, Arg.isEmptySlice, ih]

theorem any_isSlice_specArgs (Q : QueryPkg) :
    ∀ (criteria : List Criterion), hasMultiVariateOp Q criteria = true →
      ((criteria.map (specArgs Q)).flatten).any Arg.isSlice = true
  | [], h => by simp [hasMultiVariateOp] at h
  | c :: rest, h => by
    by_cases hm : Q.IsMultiVariate c.Operator = true
    · simp [specArgs, hm, Arg.isSlice]
    · simp only [hasMultiVariateOp, hm, if_false, Bool.false_eq_true] at h
      have ih := any_isSlice_specArgs Q rest h
      simp only [List.map_cons, List.flatten_cons, List.any_append, ih, Bool.or_true]

theorem sqlxIn_assembled (Q : QueryPkg) (sqlQuery baseTable labelTable : String)
    (criteria : List Criterion) (hq : NoMark sqlQuery)
    (h : ∀ c ∈ criteria, c.RightOp ≠ [] ∧ MarkFree Q baseTable labelTable c)
    (hm : hasMultiVariateOp Q criteria = true) :
    sqlxIn (sqlQuery ++ " WHERE " ++
        (stringsJoin (criteria.map (specClause Q baseTable labelTable)) " AND " ++ ";"))
        (criteria.map (specArgs Q)).flatten =
      .ok (sqlQuery ++ " WHERE " ++
        (stringsJoin (criteria.map (specExpandedClause Q baseTable labelTable)) " AND " ++ ";"),
        (criteria.map (specFlatArgs Q)).flatten) := by
  have h1 := any_isEmptySlice_specArgs Q criteria (fun c hc => (h c hc).1)
  have h2 := any_isSlice_specArgs Q criteria hm
  have hw : '?' ∉ " WHERE ".data := by decide
  have hs : '?' ∉ ";".data := by decide
  have hj := inExpand_join Q baseTable labelTable criteria h ";".data []
  rw [List.append_nil] at hj
  have he : inExpand ";".data [] = .ok (";".data, []) := by simp [inExpand]
  unfold NoMark at hq
  simp only [sqlxIn, h1, h2, Bool.false_eq_true, if_false, Bool.not_true, String.data_append,
    List.append_assoc, inExpand_noq_append _ hq, inExpand_noq_append _ hw, hj, he, okMap]
  simp only [List.append_nil, List.nil_append, Except.ok.injEq, Prod.mk.injEq, and_true]
  apply String.ext
  simp only [String.data_append, List.append_assoc]

theorem flattenArgs_append (a b : List Arg) :
    flattenArgs (a ++ b) = flattenArgs a ++ flattenArgs b := by
  induction a with
  | nil => rfl
  | cons x xs ih => cases x <;> simp [flattenArgs, ih]

theorem flattenArgs_of_no_slice :
    ∀ (args : List Arg), args.any Arg.isSlice = false → flattenArgs args = args
  | [], _ => rfl
  | Arg.str s :: rest, h => by
    have hr : rest.any Arg.isSlice = false := by simpa [Arg.isSlice] using h
    simp [flattenArgs, flattenArgs_of_no_slice rest hr]
  | Arg.strs xs :: rest, h => by simp [Arg.isSlice] at h

theorem flattenArgs_map_str (xs : List String) :
    flattenArgs (xs.map Arg.str) = xs.map Arg.str := by
  induction xs with
  | nil => rfl
  | cons x xs ih => simp [flattenArgs, ih]

theorem no_slice_map_str (xs : List String) : (xs.map Arg.str).any Arg.isSlice = false := by
  induction xs with
  | nil => rfl
  | cons x xs ih => simp [Arg.isSlice]

theorem inExpand_ok_flat :
    ∀ (q : List Char) (args : List Arg) (q2 : List Char) (flat : List Arg),
      inExpand q args = .ok (q2, flat) → flat = flattenArgs args
  | [], [], q2, flat, h => by
    simp only [inExpand, Except.ok.injEq, Prod.mk.injEq] at h
    rw [← h.2]; rfl
  | [], _ :: _, q2, flat, h => by simp [inExpand] at h
  | c :: cs, args, q2, flat, h => by
    by_cases hc : c = '?'
    · subst hc
      cases args with
      | nil => simp [inExpand] at h
      | cons a rest =>
        cases hr : inExpand cs rest with
        | error e => cases a <;> simp [inExpand, hr] at h
        | ok x =>
          obtain ⟨x1, x2⟩ := x
          have ih := inExpand_ok_flat cs rest x1 x2 hr
          cases a with
          | str s =>
            simp only [inExpand, hr, if_true, Except.ok.injEq, Prod.mk.injEq] at h
            rw [← h.2, ih]; rfl
          | strs xs =>
            simp only [inExpand, hr, if_true, Except.ok.injEq, Prod.mk.injEq] at h
            rw [← h.2, ih]; rfl
    · cases hr : inExpand cs args with
      | error e => simp [inExpand, hc, hr] at h
      | ok x =>
        obtain ⟨x1, x2⟩ := x
        have ih := inExpand_ok_flat cs args x1 x2 hr
        simp only [inExpand, hc, hr, if_false, Except.ok.injEq, Prod.mk.injEq] at h
        rw [← h.2, ih]

theorem sqlxIn_ok_flat (query : String) (args : List Arg) (q2 : String) (flat : List Arg)
    (h : sqlxIn query args = .ok (q2, flat)) : flat = flattenArgs args := by
  unfold sqlxIn at h
  by_cases h1 : args.any Arg.isEmptySlice = true
  · simp [h1] at h
  · by_cases h2 : args.any Arg.isSlice = true
    · simp only [h1, h2, Bool.false_eq_true, if_false, Bool.not_true] at h
      cases hr : inExpand query.data args with
      | error e => simp [hr] at h
      | ok x =>
        obtain ⟨x1, x2⟩ := x
        simp only [hr, Except.ok.injEq, Prod.mk.injEq] at h
        rw [← h.2]
        exact inExpand_ok_flat _ _ _ _ hr
    · have h2f : args.any Arg.isSlice = false := by simpa using h2
      simp only [h1, h2f, Bool.false_eq_true, if_false, Bool.not_false, if_true,
        Except.ok.injEq, Prod.mk.injEq] at h
      rw [← h.2, flattenArgs_of_no_slice args h2f]

theorem flattenArgs_specArgs (Q : QueryPkg) :
    ∀ (criteria : List Criterion), (∀ c ∈ criteria, c.RightOp ≠ []) →
      flattenArgs (criteria.map (specArgs Q)).flatten = (criteria.map (specFlatArgs Q)).flatten
  | [], _ => rfl
  | c :: rest, h => by
    have ih := flattenArgs_specArgs Q rest (fun e he => h e (List.mem_cons_of_mem _ he))
    simp only [List.map_cons, List.flatten_cons, flattenArgs_append, ih,
      List.append_cancel_right_eq]
    cases hT : c.Typ <;> by_cases hm : Q.IsMultiVariate c.Operator = true <;>
      simp only [specArgs, specFlatArgs, hT, hm, flattenArgs, if_true, if_false,
        List.nil_append, List.append_nil, List.cons_append, reduceCtorEq, List.map_cons,
        List.map_append, List.map_nil, flattenArgs_map_str, Bool.false_eq_true]

theorem no_slice_specArgs (Q : QueryPkg) :
    ∀ (criteria : List Criterion), hasMultiVariateOp Q criteria = false →
      ((criteria.map (specArgs Q)).flatten).any Arg.isSlice = false
  | [], _ => rfl
  | c :: rest, h => by
    by_cases hm : Q.IsMultiVariate c.Operator = true
    · simp [hasMultiVariateOp, hm] at h
    · simp only [hasMultiVariateOp, hm, if_false, Bool.false_eq_true] at h
      have ih := no_slice_specArgs Q rest h
      have hs := no_slice_map_str (c.RightOp.take 1)
      cases hT : c.Typ <;>
        simp only [List.map_cons, List.flatten_cons, specArgs, hT, hm, if_true, if_false,
          reduceCtorEq, List.any_append, List.any_cons, List.any_nil, Arg.isSlice, hs, ih,
          Bool.or_false, Bool.false_eq_true]

theorem specExpandedClause_of_single (Q : QueryPkg) (baseTable labelTable : String) :
    ∀ (criteria : List Criterion), hasMultiVariateOp Q criteria = false →
      criteria.map (specExpandedClause Q baseTable labelTable) =
        criteria.map (specClause Q baseTable labelTable)
  | [], _ => rfl
  | c :: rest, h => by
    by_cases hm : Q.IsMultiVariate c.Operator = true
    · simp [hasMultiVariateOp, hm] at h
    · simp only [hasMultiVariateOp, hm, if_false, Bool.false_eq_true] at h
      simp [specExpandedClause_of_single Q baseTable labelTable rest h, specExpandedClause,
        specClause, specPlaceholder, specExpandedPlaceholder, hm]

theorem buildQuery_nil (Q : QueryPkg) (extContext : ExtContext)
    (sqlQuery baseTable labelTable : String) :
    buildQueryWithParams Q extContext sqlQuery baseTable labelTable [] =
      GoResult.ok (sqlQuery ++ ";", []) := by
  simp [buildQueryWithParams]

/-- The result of `buildQueryWithParams` on a non-empty list of criteria that carry a
right-operand value: the expanded clauses and the flattened arguments, provided no
operator is multi-variate or the texts spliced into the query hold no `?`. -/
theorem buildQueryWithParams_ok (Q : QueryPkg) (extContext : ExtContext)
    (sqlQuery baseTable labelTable : String) (criteria : List Criterion)
    (hne : criteria ≠ []) (hinv : ∀ c ∈ criteria, c.RightOp ≠ [])
    (hmark : hasMultiVariateOp Q criteria = true →
      NoMark sqlQuery ∧ ∀ c ∈ criteria, MarkFree Q baseTable labelTable c) :
    buildQueryWithParams Q extContext sqlQuery baseTable labelTable criteria =
      GoResult.ok (extContext.Rebind (sqlQuery ++ " WHERE " ++
        (stringsJoin (criteria.map (specExpandedClause Q baseTable labelTable)) " AND " ++ ";")),
        (criteria.map (specFlatArgs Q)).flatten) := by
  have hlen : criteria.length ≠ 0 := by
    cases criteria with
    | nil => exact absurd rfl hne
    | cons c cs => simp
  simp only [buildQueryWithParams, hlen, if_false,
    assembleQuery_eq Q sqlQuery baseTable labelTable criteria hinv]
  by_cases hm : hasMultiVariateOp Q criteria = true
  · obtain ⟨hq, hc⟩ := hmark hm
    simp only [hm, if_true, sqlxIn_assembled Q sqlQuery baseTable labelTable criteria hq
      (fun c h => ⟨hinv c h, hc c h⟩) hm]
  · have hmf : hasMultiVariateOp Q criteria = false := by simpa using hm
    have e1 := flattenArgs_specArgs Q criteria hinv
    rw [flattenArgs_of_no_slice _ (no_slice_specArgs Q criteria hmf)] at e1
    simp only [hmf, Bool.false_eq_true, if_false, e1,
      specExpandedClause_of_single Q baseTable labelTable criteria hmf]

/-- Whenever `buildQueryWithParams` returns without error, its argument list is the
flattening of what the loop collected. -/
theorem buildQuery_args_flat (Q : QueryPkg) (extContext : ExtContext)
    (sqlQuery baseTable labelTable : String) (criteria : List Criterion)
    (hinv : ∀ c ∈ criteria, c.RightOp ≠ []) (q : String) (ps : List Arg)
    (h : buildQueryWithParams Q extContext sqlQuery baseTable labelTable criteria =
      GoResult.ok (q, ps)) :
    ps = (criteria.map (specFlatArgs Q)).flatten := by
  cases criteria with
  | nil =>
    simp only [buildQueryWithParams, List.length_nil, if_true, GoResult.ok.injEq,
      Prod.mk.injEq] at h
    rw [← h.2]; rfl
  | cons c cs =>
    have hlen : (c :: cs).length ≠ 0 := by simp
    simp only [buildQueryWithParams, hlen, if_false,
      assembleQuery_eq Q sqlQuery baseTable labelTable (c :: cs) hinv] at h
    by_cases hm : hasMultiVariateOp Q (c :: cs) = true
    · simp only [hm, if_true] at h
      split at h
      · simp at h
      · rename_i q2 ps2 hr
        simp only [GoResult.ok.injEq, Prod.mk.injEq] at h
        rw [← h.2, sqlxIn_ok_flat _ _ _ _ hr, flattenArgs_specArgs Q (c :: cs) hinv]
    · have hmf : hasMultiVariateOp Q (c :: cs) = false := by simpa using hm
      have e1 := flattenArgs_specArgs Q (c :: cs) hinv
      rw [flattenArgs_of_no_slice _ (no_slice_specArgs Q (c :: cs) hmf)] at e1
      simp only [hmf, Bool.false_eq_true, if_false, GoResult.ok.injEq, Prod.mk.injEq] at h
      rw [← h.2, e1]

/-! ## Helper lemmas: the label store -/

theorem foldl_args (values : List String) (init : List Arg) :
    values.foldl (fun args val => args ++ [Arg.str val]) init = init ++ values.map Arg.str := by
  induction values generalizing init with
  | nil => simp
  | cons v vs ih => simp [ih]

theorem sqlxIn_of_strings (query : String) (values : List String) :
    sqlxIn query (values.map Arg.str) = .ok (query, values.map Arg.str) := by
  have h1 : (values.map Arg.str).any Arg.isEmptySlice = false := by
    induction values with
    | nil => rfl
    | cons x xs ih => simp [Arg.isEmptySlice]
  simp [sqlxIn, h1, no_slice_map_str]

/-- The statement `removeLabel` issues when label values are given: the IN list stays
the single marker `$3`, and every value is passed as an argument of its own. -/
theorem removeLabel_values {σ L R : Type} (env : LabelEnv σ L R) (labelable : L)
    (referenceID labelKey : String) (labelValues : List String) (hne : labelValues ≠ [])
    (w : World σ L R) :
    removeLabel env labelable referenceID labelKey labelValues w =
      execute env ("DELETE FROM " ++ (env.Label labelable).1 ++ " WHERE key=$1 AND " ++
          (env.Label labelable).2.1 ++ "=$2" ++ " AND val IN ($3)")
        ([Arg.str labelKey, Arg.str referenceID] ++ labelValues.map Arg.str) w := by
  have hlen : labelValues.length ≠ 0 := by
    cases labelValues with
    | nil => exact absurd rfl hne
    | cons v vs => simp
  have hs := sqlxIn_of_strings ("DELETE FROM " ++ (env.Label labelable).1 ++
    " WHERE key=$1 AND " ++ (env.Label labelable).2.1 ++ "=$2" ++ " AND val IN ($3)")
    (labelKey :: referenceID :: labelValues)
  simp only [List.map_cons] at hs
  simp only [removeLabel, hlen, if_false, foldl_args, List.cons_append, List.nil_append, hs]

theorem execute_traced {σ L R : Type} (env : LabelEnv σ L R) (query : String)
    (args : List Arg) (w : World σ L R) : Traced env w (execute env query args w) := by
  unfold execute
  cases h : env.ExecContext query args w.db with
  | mk r db1 =>
    cases r with
    | error err =>
      refine ⟨[Executed.exec query args (.error err)], rfl, fun h => by simp at h, ?_⟩
      intro e he
      simp only [Except.error.injEq] at he
      subst he
      exact Or.inl ⟨[], _, rfl, fun x hx => by simp at hx, rfl⟩
    | ok result =>
      refine ⟨[Executed.exec query args (.ok result)], rfl, ?_, ?_⟩
      · intro hok x hx
        simp only [List.mem_singleton] at hx
        subst hx
        simp only at hok
        simp [reportedError, hok]
      · intro e he
        simp only at he
        exact Or.inl ⟨[], _, rfl, fun x hx => by simp at hx, by simp [reportedError, he]⟩

theorem removeLabel_traced {σ L R : Type} (env : LabelEnv σ L R) (labelable : L)
    (referenceID labelKey : String) (labelValues : List String) (w : World σ L R) :
    Traced env w (removeLabel env labelable referenceID labelKey labelValues w) := by
  cases labelValues with
  | nil => simp only [removeLabel, List.length_nil, if_true]; exact execute_traced env _ _ w
  | cons v vs =>
    rw [removeLabel_values env labelable referenceID labelKey (v :: vs) (by simp) w]
    exact execute_traced env _ _ w

theorem addLabel_traced {σ L R : Type} (env : LabelEnv σ L R)
    (newLabelFunc : String → String → String → L) (key : String) :
    ∀ (values : List String) (w : World σ L R),
      Traced env w (addLabel env newLabelFunc key values w)
  | [], w => ⟨[], by simp [addLabel], fun _ x hx => by simp at hx, fun e he => by
      simp [addLabel] at he⟩
  | v :: rest, w => by
    unfold addLabel
    cases h : env.NewV4 w.db with
    | mk r db1 =>
      cases r with
      | error err =>
        refine ⟨[], by simp, fun hok => by simp at hok, ?_⟩
        intro e he
        simp only [Except.error.injEq] at he
        exact Or.inr ⟨fun x hx => by simp at hx, err, he.symm⟩
      | ok labelID =>
        simp only [create]
        cases hc : env.create (env.Label (newLabelFunc labelID key v)).1
            (newLabelFunc labelID key v) db1 with
        | mk rc db2 =>
          cases rc with
          | error err =>
            refine ⟨[Executed.insert _ (newLabelFunc labelID key v) (some err)], rfl,
              fun hok => by simp at hok, ?_⟩
            intro e he
            simp only [Except.error.injEq] at he
            subst he
            exact Or.inl ⟨[], _, rfl, fun x hx => by simp at hx, rfl⟩
          | ok u =>
            obtain ⟨entries, hlog, hok, herr⟩ := addLabel_traced env newLabelFunc key rest
              ⟨db2, w.log ++ [Executed.insert (env.Label (newLabelFunc labelID key v)).1
                (newLabelFunc labelID key v) none]⟩
            refine ⟨Executed.insert (env.Label (newLabelFunc labelID key v)).1
                (newLabelFunc labelID key v) none :: entries, ?_, ?_, ?_⟩
            · simp only [hlog, List.append_assoc, List.singleton_append]
            · intro h1 x hx
              rcases List.mem_cons.1 hx with hx | hx
              · subst hx; rfl
              · exact hok h1 x hx
            · intro e he
              rcases herr e he with ⟨before, last, h1, h2, h3⟩ | ⟨h1, h2⟩
              · refine Or.inl ⟨_ :: before, last, by rw [h1]; rfl, ?_, h3⟩
                intro x hx
                rcases List.mem_cons.1 hx with hx | hx
                · subst hx; rfl
                · exact h2 x hx
              · refine Or.inr ⟨?_, h2⟩
                intro x hx
                rcases List.mem_cons.1 hx with hx | hx
                · subst hx; rfl
                · exact h1 x hx

theorem applyAction_traced {σ L R : Type} (env : LabelEnv σ L R)
    (newLabelFunc : String → String → String → L) (referenceID : String)
    (action : LabelChange) (w : World σ L R) :
    Traced env w (applyAction env newLabelFunc referenceID action w) := by
  unfold applyAction
  cases action.Operation with
  | AddLabelOperation => exact addLabel_traced env newLabelFunc _ _ w
  | AddLabelValuesOperation => exact addLabel_traced env newLabelFunc _ _ w
  | RemoveLabelOperation => exact removeLabel_traced env _ _ _ _ w
  | RemoveLabelValuesOperation => exact removeLabel_traced env _ _ _ _ w
  | Other name =>
    exact ⟨[], by simp, fun _ x hx => by simp at hx, fun e he => by simp at he⟩

theorem updateLabelsAbstract_append {σ L R : Type} (env : LabelEnv σ L R)
    (newLabelFunc : String → String → String → L) (referenceID : String) :
    ∀ (pre post : List LabelChange) (w w1 : World σ L R),
      updateLabelsAbstract env newLabelFunc referenceID pre w = (.ok (), w1) →
      updateLabelsAbstract env newLabelFunc referenceID (pre ++ post) w =
        updateLabelsAbstract env newLabelFunc referenceID post w1
  | [], post, w, w1, h => by
    simp only [updateLabelsAbstract, Prod.mk.injEq, true_and] at h
    rw [List.nil_append, h]
  | a :: pre, post, w, w1, h => by
    simp only [List.cons_append, updateLabelsAbstract] at h ⊢
    cases ha : applyAction env newLabelFunc referenceID a w with
    | mk r w2 =>
      cases r with
      | error err => simp [ha] at h
      | ok u =>
        simp only [ha] at h ⊢
        exact updateLabelsAbstract_append env newLabelFunc referenceID pre post w2 w1 h

theorem updateLabelsAbstract_abort {σ L R : Type} (env : LabelEnv σ L R)
    (newLabelFunc : String → String → String → L) (referenceID : String)
    (pre : List LabelChange) (a : LabelChange) (post : List LabelChange)
    (w w1 w2 : World σ L R) (e : String)
    (hpre : updateLabelsAbstract env newLabelFunc referenceID pre w = (.ok (), w1))
    (ha : applyAction env newLabelFunc referenceID a w1 = (.error e, w2)) :
    updateLabelsAbstract env newLabelFunc referenceID (pre ++ a :: post) w = (.error e, w2) := by
  rw [updateLabelsAbstract_append env newLabelFunc referenceID pre (a :: post) w w1 hpre]
  simp only [updateLabelsAbstract, ha]

theorem applyAction_failing_statement {σ L R : Type} (env : LabelEnv σ L R)
    (newLabelFunc : String → String → String → L) (referenceID : String)
    (a : LabelChange) (w1 w2 : World σ L R) (r : Except String Unit)
    (before : List (Executed L R)) (last : Executed L R) (e : String)
    (ha : applyAction env newLabelFunc referenceID a w1 = (r, w2))
    (hlog : w2.log = w1.log ++ before ++ [last]) (hlast : reportedError env last = some e) :
    r = .error e := by
  obtain ⟨entries, h1, hok, herr⟩ := applyAction_traced env newLabelFunc referenceID a w1
  rw [ha] at h1 hok herr
  simp only at h1 hok herr
  have hent : entries = before ++ [last] := by
    rw [hlog, List.append_assoc] at h1
    exact (List.append_cancel_left h1).symm
  cases r with
  | ok u =>
    have hc := hok rfl last (by rw [hent]; simp)
    rw [hlast] at hc
    exact absurd hc (by simp)
  | error e2 =>
    rcases herr e2 rfl with ⟨b2, l2, h2, _, h4⟩ | ⟨h2, _⟩
    · rw [hent] at h2
      have hl : last = l2 := by
        have := congrArg List.getLast? h2
        simpa using this
      rw [← hl, hlast] at h4
      simp only [Option.some.injEq] at h4
      rw [h4]
    · have hc := h2 last (by rw [hent]; simp)
      rw [hlast] at hc
      exact absurd hc (by simp)

theorem updateLabelsAbstract_ok_iff {σ L R : Type} (env : LabelEnv σ L R)
    (newLabelFunc : String → String → String → L) (referenceID : String) :
    ∀ (actions : List LabelChange) (w : World σ L R),
      (updateLabelsAbstract env newLabelFunc referenceID actions w).1 = .ok () ↔
        ∀ (i : Nat) (h : i < actions.length),
          (applyAction env newLabelFunc referenceID (actions.get ⟨i, h⟩)
            (updateLabelsAbstract env newLabelFunc referenceID (actions.take i) w).2).1 =
              .ok ()
  | [], w => by simp [updateLabelsAbstract]
  | a :: rest, w => by
    have ih := updateLabelsAbstract_ok_iff env newLabelFunc referenceID rest
    cases ha : applyAction env newLabelFunc referenceID a w with
    | mk r w1 =>
      cases r with
      | error err =>
        simp only [updateLabelsAbstract, ha]
        constructor
        · intro h; simp at h
        · intro h
          have h0 := h 0 (by simp)
          simp [updateLabelsAbstract, ha] at h0
      | ok u =>
        simp only [updateLabelsAbstract, ha]
        rw [ih w1]
        constructor
        · intro h i hi
          cases i with
          | zero => simp [updateLabelsAbstract, ha]
          | succ j =>
            have hj : j < rest.length := by simpa using hi
            simpa [updateLabelsAbstract, ha] using h j hj
        · intro h j hj
          have := h (j + 1) (by simpa using hj)
          simpa [updateLabelsAbstract, ha] using this

theorem updateLabelsAbstract_congr {σ L R : Type} (env : LabelEnv σ L R)
    (newLabelFunc : String → String → String → L) (referenceID : String)
    (a b : LabelChange)
    (hab : ∀ w : World σ L R, applyAction env newLabelFunc referenceID a w =
      applyAction env newLabelFunc referenceID b w)
    (post : List LabelChange) :
    ∀ (pre : List LabelChange) (w : World σ L R),
      updateLabelsAbstract env newLabelFunc referenceID (pre ++ a :: post) w =
        updateLabelsAbstract env newLabelFunc referenceID (pre ++ b :: post) w
  | [], w => by simp only [List.nil_append, updateLabelsAbstract, hab w]
  | c :: pre, w => by
    simp only [List.cons_append, updateLabelsAbstract]
    cases applyAction env newLabelFunc referenceID c w with
    | mk r w1 =>
      cases r with
      | error err => rfl
      | ok u =>
        exact updateLabelsAbstract_congr env newLabelFunc referenceID a b hab post pre w1

theorem removeLabel_nil {σ L R : Type} (env : LabelEnv σ L R) (labelable : L)
    (referenceID labelKey : String) (w : World σ L R) :
    removeLabel env labelable referenceID labelKey [] w =
      execute env ("DELETE FROM " ++ (env.Label labelable).1 ++ " WHERE key=$1 AND " ++
          (env.Label labelable).2.1 ++ "=$2")
        [Arg.str labelKey, Arg.str referenceID] w := by
  simp only [removeLabel, List.length_nil, if_true]

theorem execute_log {σ L R : Type} (env : LabelEnv σ L R) (query : String)
    (args : List Arg) (w : World σ L R) :
    (execute env query args w).2.log =
      w.log ++ [Executed.exec query args (env.ExecContext query args w.db).1] := by
  unfold execute
  cases h : env.ExecContext query args w.db with
  | mk r db1 => cases r <;> rfl

theorem execute_zero_rows {σ L : Type} (env : LabelEnv σ L SqlResult)
    (hcheck : env.checkRowsAffected = specCheckRowsAffected) (query : String)
    (args : List Arg) (w : World σ L SqlResult) (q2 : String) (args2 : List Arg)
    (result : SqlResult)
    (hlog : (execute env query args w).2.log = w.log ++ [Executed.exec q2 args2 (.ok result)])
    (hzero : result.RowsAffected = .ok 0) :
    (execute env query args w).1 = .ok () := by
  rw [execute_log] at hlog
  have h1 := List.append_cancel_left hlog
  simp only [List.cons.injEq, Executed.exec.injEq, and_true] at h1
  obtain ⟨_, _, h4⟩ := h1
  unfold execute
  cases h : env.ExecContext query args w.db with
  | mk r db1 =>
    rw [h] at h4
    simp only at h4
    subst h4
    simp only [hcheck, specCheckRowsAffected, hzero]

theorem nonempty_iff_length_pos (s : String) : s.length > 0 ↔ s ≠ "" := by
  constructor
  · intro h hs
    rw [hs] at h
    exact absurd h (by decide)
  · intro h
    have hd : s.data ≠ [] := by
      intro hd
      apply h
      apply String.ext
      rw [hd]
    exact List.length_pos.2 hd

theorem addLabel_cons {σ L R : Type} (env : LabelEnv σ L R)
    (newLabelFunc : String → String → String → L) (key v : String) (rest : List String)
    (w : World σ L R) :
    addLabel env newLabelFunc key (v :: rest) w =
      match env.NewV4 w.db with
      | (.error err, db1) =>
        (.error ("could not generate id for new label: " ++ err), ⟨db1, w.log⟩)
      | (.ok labelID, db1) =>
        match env.create (env.Label (newLabelFunc labelID key v)).1
            (newLabelFunc labelID key v) db1 with
        | (.error err, db2) =>
          (.error err, ⟨db2, w.log ++ [Executed.insert (env.Label (newLabelFunc labelID key v)).1
            (newLabelFunc labelID key v) (some err)]⟩)
        | (.ok _, db2) =>
          addLabel env newLabelFunc key rest
            ⟨db2, w.log ++ [Executed.insert (env.Label (newLabelFunc labelID key v)).1
              (newLabelFunc labelID key v) none]⟩ := by
  rw [addLabel]
  cases h : env.NewV4 w.db with
  | mk r db1 =>
    cases r with
    | error err => rfl
    | ok labelID =>
      simp only [create]
      cases hc : env.create (env.Label (newLabelFunc labelID key v)).1
          (newLabelFunc labelID key v) db1 with
      | mk rc db2 => cases rc <;> rfl

theorem addLabel_counting_sim {σ L R : Type} (env : LabelEnv σ L R)
    (newLabelFunc : String → String → String → L) (key : String) :
    ∀ (values : List String) (w : World σ L R) (c : Nat),
      (addLabel (countingEnv env) newLabelFunc key values ⟨(w.db, c), w.log⟩).1 =
        (addLabel env newLabelFunc key values w).1 ∧
      (addLabel (countingEnv env) newLabelFunc key values ⟨(w.db, c), w.log⟩).2.db.1 =
        (addLabel env newLabelFunc key values w).2.db ∧
      (addLabel (countingEnv env) newLabelFunc key values ⟨(w.db, c), w.log⟩).2.log =
        (addLabel env newLabelFunc key values w).2.log
  | [], w, c => ⟨rfl, rfl, rfl⟩
  | v :: rest, w, c => by
    rw [addLabel_cons, addLabel_cons]
    simp only [countingEnv]
    cases h : env.NewV4 w.db with
    | mk r db1 =>
      cases r with
      | error err => exact ⟨rfl, rfl, rfl⟩
      | ok labelID =>
        simp only
        cases hc : env.create (env.Label (newLabelFunc labelID key v)).1
            (newLabelFunc labelID key v) db1 with
        | mk rc db2 =>
          cases rc with
          | error err => exact ⟨rfl, rfl, rfl⟩
          | ok u =>
            exact addLabel_counting_sim env newLabelFunc key rest
              ⟨db2, w.log ++ [Executed.insert (env.Label (newLabelFunc labelID key v)).1
                (newLabelFunc labelID key v) none]⟩ (c + 1)

theorem addLabel_counting_run {σ L R : Type} (env : LabelEnv σ L R)
    (newLabelFunc : String → String → String → L) (key : String) :
    ∀ (values : List String) (w : World (σ × Nat) L R),
      ((addLabel (countingEnv env) newLabelFunc key values w).1 = .ok () →
        ∃ ids, ids.length = values.length ∧
          (addLabel (countingEnv env) newLabelFunc key values w).2.log =
            w.log ++ insertsOf env newLabelFunc key ids values ∧
          (addLabel (countingEnv env) newLabelFunc key values w).2.db.2 =
            w.db.2 + values.length) ∧
      (∀ e, (addLabel (countingEnv env) newLabelFunc key values w).1 = .error e →
        ∃ done v later ids, values = done ++ v :: later ∧ ids.length = done.length ∧
          (addLabel (countingEnv env) newLabelFunc key values w).2.db.2 =
            w.db.2 + done.length + 1 ∧
          (((addLabel (countingEnv env) newLabelFunc key values w).2.log =
              w.log ++ insertsOf env newLabelFunc key ids done ∧
              ∃ err, e = "could not generate id for new label: " ++ err) ∨
           (∃ id, (addLabel (countingEnv env) newLabelFunc key values w).2.log =
              w.log ++ insertsOf env newLabelFunc key ids done ++
                [Executed.insert (env.Label (newLabelFunc id key v)).1
                  (newLabelFunc id key v) (some e)])))
  | [], w => by
    refine ⟨fun _ => ⟨[], rfl, by simp [addLabel, insertsOf], by simp [addLabel]⟩, ?_⟩
    intro e he
    simp [addLabel] at he
  | v :: rest, w => by
    rw [addLabel_cons]
    simp only [countingEnv]
    cases h : env.NewV4 w.db.1 with
    | mk r db1 =>
      cases r with
      | error err =>
        refine ⟨fun hok => by simp at hok, ?_⟩
        intro e he
        simp only [Except.error.injEq] at he
        exact ⟨[], v, rest, [], rfl, rfl, by simp,
          Or.inl ⟨by simp [insertsOf], err, he.symm⟩⟩
      | ok labelID =>
        simp only
        cases hc : env.create (env.Label (newLabelFunc labelID key v)).1
            (newLabelFunc labelID key v) db1 with
        | mk rc db2 =>
          cases rc with
          | error err =>
            refine ⟨fun hok => by simp at hok, ?_⟩
            intro e he
            simp only [Except.error.injEq] at he
            subst he
            exact ⟨[], v, rest, [], rfl, rfl, by simp,
              Or.inr ⟨labelID, by simp [insertsOf]⟩⟩
          | ok u =>
            simp only
            obtain ⟨ihok, iherr⟩ := addLabel_counting_run env newLabelFunc key rest
              ⟨(db2, w.db.2 + 1), w.log ++ [Executed.insert
                (env.Label (newLabelFunc labelID key v)).1 (newLabelFunc labelID key v) none]⟩
            simp only [countingEnv] at ihok iherr
            refine ⟨?_, ?_⟩
            · intro hok
              obtain ⟨ids, h1, h2, h3⟩ := ihok hok
              refine ⟨labelID :: ids, by simp [h1], ?_, ?_⟩
              · rw [h2]; simp [insertsOf]
              · rw [h3]; simp only [List.length_cons]; omega
            · intro e he
              obtain ⟨done, v2, later, ids, h1, h2, h3, h4⟩ := iherr e he
              refine ⟨v :: done, v2, later, labelID :: ids, by simp [h1], by simp [h2], ?_, ?_⟩
              · rw [h3]; simp only [List.length_cons]; omega
              · rcases h4 with ⟨h5, h6⟩ | ⟨id, h5⟩
                · exact Or.inl ⟨by rw [h5]; simp [insertsOf], h6⟩
                · exact Or.inr ⟨id, by rw [h5]; simp [insertsOf]⟩

theorem storeEnv_add (s : Store) (referenceID k v : String)
    (log : List (Executed StoredLabel SqlResult)) (h : s.hasRow referenceID k v = false) :
    addLabel storeEnv (newStoredLabel referenceID) k [v] ⟨s, log⟩ =
      (.ok (), ⟨⟨s.rows ++ [⟨"id-" ++ Nat.repr s.nextID, k, v, referenceID⟩], s.nextID + 1⟩,
        log ++ [Executed.insert "labels" ⟨"id-" ++ Nat.repr s.nextID, k, v, referenceID⟩ none]⟩) := by
  have h2 : Store.hasRow ⟨s.rows, s.nextID + 1⟩ referenceID k v = false := h
  simp only [addLabel, create, storeEnv, newStoredLabel, h2, Bool.false_eq_true, if_false]

theorem storeEnv_remove_value (s : Store) (labelable : StoredLabel) (referenceID k v : String)
    (log : List (Executed StoredLabel SqlResult)) :
    removeLabel storeEnv labelable referenceID k [v] ⟨s, log⟩ =
      (.ok (), ⟨⟨s.rows.filter (fun r => !(StoredLabel.isLabel referenceID k v r)), s.nextID⟩,
        log ++ [Executed.exec "DELETE FROM labels WHERE key=$1 AND ref_id=$2 AND val IN ($3)"
          [Arg.str k, Arg.str referenceID, Arg.str v]
          (.ok ⟨.ok ((s.rows.filter (StoredLabel.isLabel referenceID k v)).length : Int)⟩)]⟩) := by
  rw [removeLabel_values storeEnv labelable referenceID k [v] (by simp)]
  have hq : "DELETE FROM " ++ (storeEnv.Label labelable).1 ++ " WHERE key=$1 AND " ++
      (storeEnv.Label labelable).2.1 ++ "=$2" ++ " AND val IN ($3)" =
      "DELETE FROM labels WHERE key=$1 AND ref_id=$2 AND val IN ($3)" := by
    show "DELETE FROM " ++ "labels" ++ " WHERE key=$1 AND " ++ "ref_id" ++ "=$2" ++
      " AND val IN ($3)" = _
    decide
  have hne : ¬ ("DELETE FROM labels WHERE key=$1 AND ref_id=$2 AND val IN ($3)" =
      "DELETE FROM labels WHERE key=$1 AND ref_id=$2") := by decide
  rw [hq]
  simp only [execute, storeEnv, hne, if_false, if_true, List.map_cons, List.map_nil,
    List.cons_append, List.nil_append, specCheckRowsAffected]

theorem hasRow_filter_not (rows : List StoredLabel) (n : Nat) (referenceID k v : String) :
    Store.hasRow ⟨rows.filter (fun r => !(StoredLabel.isLabel referenceID k v r)), n⟩
      referenceID k v = false := by
  simp [Store.hasRow]

theorem hasRow_append_self (rows : List StoredLabel) (n : Nat) (referenceID id k v : String) :
    Store.hasRow ⟨rows ++ [⟨id, k, v, referenceID⟩], n⟩ referenceID k v = true := by
  simp [Store.hasRow, StoredLabel.isLabel]

/-! ## Helper lemmas: positional markers -/

theorem splitMarks_ne_nil : ∀ (t : List Char), splitMarks t ≠ []
  | [] => by simp [splitMarks]
  | c :: cs => by
    by_cases hc : c = '?'
    · simp [splitMarks, hc]
    · cases h : splitMarks cs <;> simp [splitMarks, hc, h]

theorem numbered_cons_cons (j : Nat) (c : Char) (p : List Char) (ps : List (List Char)) :
    numbered j ((c :: p) :: ps) = c :: numbered j (p :: ps) := by
  cases ps with
  | nil => rfl
  | cons q rest => simp [numbered]

theorem rebindFrom_eq_numbered : ∀ (t : List Char) (j : Nat),
    rebindFrom j t = numbered j (splitMarks t)
  | [], j => rfl
  | c :: cs, j => by
    have ih := rebindFrom_eq_numbered cs
    by_cases hc : c = '?'
    · cases h : splitMarks cs with
      | nil => exact absurd h (splitMarks_ne_nil cs)
      | cons q rest =>
        simp only [rebindFrom, splitMarks, hc, if_true, h, numbered, ih (j + 1),
          List.nil_append]
    · cases h : splitMarks cs with
      | nil => exact absurd h (splitMarks_ne_nil cs)
      | cons q rest =>
        simp only [rebindFrom, splitMarks, hc, if_false, h, numbered_cons_cons, ih j]

theorem splitMarks_length : ∀ (t : List Char), (splitMarks t).length = t.count '?' + 1
  | [] => rfl
  | c :: cs => by
    have ih := splitMarks_length cs
    by_cases hc : c = '?'
    · subst hc
      simp only [splitMarks, if_true, List.length_cons, ih, List.count_cons_self]
    · cases h : splitMarks cs with
      | nil => exact absurd h (splitMarks_ne_nil cs)
      | cons q rest =>
        rw [h] at ih
        have hc2 : ('?' : Char) ≠ c := fun e => hc e.symm
        simp only [splitMarks, hc, if_false, h, List.length_cons,
          List.count_cons_of_ne hc2] at ih ⊢
        exact ih

theorem splitMarks_no_mark : ∀ (t : List Char), ∀ p ∈ splitMarks t, '?' ∉ p
  | [], p, hp => by
    simp only [splitMarks, List.mem_singleton] at hp
    subst hp
    simp
  | c :: cs, p, hp => by
    have ih := splitMarks_no_mark cs
    by_cases hc : c = '?'
    · simp only [splitMarks, hc, if_true, List.mem_cons] at hp
      rcases hp with hp | hp
      · subst hp; simp
      · exact ih p hp
    · cases h : splitMarks cs with
      | nil => exact absurd h (splitMarks_ne_nil cs)
      | cons q rest =>
        rw [h] at ih
        simp only [splitMarks, hc, if_false, h, List.mem_cons] at hp
        rcases hp with hp | hp
        · subst hp
          intro hm
          rcases List.mem_cons.1 hm with e | e
          · exact hc e.symm
          · exact ih q (List.mem_cons_self _ _) e
        · exact ih p (List.mem_cons_of_mem _ hp)

theorem count_noMark (s : String) (h : NoMark s) : s.data.count '?' = 0 :=
  List.count_eq_zero.2 h

theorem count_expandedClause (Q : QueryPkg) (baseTable labelTable : String) (c : Criterion)
    (hc : MarkFree Q baseTable labelTable c) (hR : c.RightOp ≠ []) :
    (specExpandedClause Q baseTable labelTable c).data.count '?' = (specFlatArgs Q c).length := by
  obtain ⟨l, o, r, ty⟩ := c
  obtain ⟨hf, hl, ho⟩ := hc
  simp only at hf hl ho hR
  have co := count_noMark _ ho
  cases r with
  | nil => exact absurd rfl hR
  | cons r0 rs =>
    have hrep := stringsJoin_replicate_data rs.length
    have hcm : List.count '?' (List.replicate rs.length [',', ' ', '?']).flatten = rs.length :=
      count_marks_replicate rs.length
    cases ty
    · obtain ⟨hb, hf2⟩ := hf rfl
      have cb := count_noMark _ hb
      have cf := count_noMark _ hf2
      by_cases hm : Q.IsMultiVariate o = true <;> by_cases hn : Q.IsNullable o = true <;>
      simp [specExpandedClause, clauseWith, plainClauseWith, specWrap,
        specExpandedPlaceholder, specFlatArgs, hm, hn, String.data_append, List.count_append,
        cb, cf, co, hrep, count_marks_replicate] <;> omega
    · have cl := count_noMark _ (hl rfl)
      by_cases hm : Q.IsMultiVariate o = true
      · simp [specExpandedClause, clauseWith, plainClauseWith, specWrap,
          specExpandedPlaceholder, specFlatArgs, hm, String.data_append, List.count_append,
          cl, co, hrep, count_marks_replicate]
        omega
      · simp [specExpandedClause, clauseWith, plainClauseWith, specWrap,
          specExpandedPlaceholder, specFlatArgs, hm, String.data_append, List.count_append,
          cl, co, hrep, count_marks_replicate]

theorem count_join_expanded (Q : QueryPkg) (baseTable labelTable : String) :
    ∀ (criteria : List Criterion),
      (∀ c ∈ criteria, c.RightOp ≠ [] ∧ MarkFree Q baseTable labelTable c) →
      (stringsJoin (criteria.map (specExpandedClause Q baseTable labelTable))
          " AND ").data.count '?' = ((criteria.map (specFlatArgs Q)).flatten).length
  | [], _ => rfl
  | [c], h => by
    have hc := h c (List.mem_cons_self _ _)
    simp only [List.map_cons, List.map_nil, stringsJoin, List.flatten_cons, List.flatten_nil,
      List.append_nil]
    exact count_expandedClause Q baseTable labelTable c hc.2 hc.1
  | c :: d :: rest, h => by
    have hc := h c (List.mem_cons_self _ _)
    have ih := count_join_expanded Q baseTable labelTable (d :: rest)
      (fun e he => h e (List.mem_cons_of_mem _ he))
    have hand : (" AND ".data).count '?' = 0 := by decide
    simp only [List.map_cons, stringsJoin, List.flatten_cons, String.data_append,
      List.count_append, List.length_append] at ih ⊢
    rw [count_expandedClause Q baseTable labelTable c hc.2 hc.1, hand, ih]
    omega

theorem count_expanded_text (Q : QueryPkg) (sqlQuery baseTable labelTable : String)
    (criteria : List Criterion) (hq : NoMark sqlQuery)
    (h : ∀ c ∈ criteria, c.RightOp ≠ [] ∧ MarkFree Q baseTable labelTable c) :
    (sqlQuery ++ " WHERE " ++
      (stringsJoin (criteria.map (specExpandedClause Q baseTable labelTable)) " AND " ++
        ";")).data.count '?' = ((criteria.map (specFlatArgs Q)).flatten).length := by
  have hw : (" WHERE ".data).count '?' = 0 := by decide
  have hs : (";".data).count '?' = 0 := by decide
  simp only [String.data_append, List.count_append, count_noMark _ hq, hw, hs,
    count_join_expanded Q baseTable labelTable criteria h]
  omega

/-! ## Helper lemmas: reading the markers of the rebound query -/

theorem digitChar_isDigit (d : Nat) (h : d < 10) : (Nat.digitChar d).isDigit = true := by
  interval_cases d <;> decide

theorem toDigitsCore_isDigit : ∀ (f n : Nat) (acc : List Char),
    (∀ c ∈ acc, c.isDigit = true) → ∀ c ∈ Nat.toDigitsCore 10 f n acc, c.isDigit = true
  | 0, _, acc, h => by simpa [Nat.toDigitsCore] using h
  | f + 1, n, acc, h => by
    have hd := digitChar_isDigit (n % 10) (Nat.mod_lt _ (by decide))
    have hacc : ∀ c ∈ Nat.digitChar (n % 10) :: acc, c.isDigit = true := by
      intro c hc
      rcases List.mem_cons.1 hc with e | e
      · rw [e]; exact hd
      · exact h c e
    simp only [Nat.toDigitsCore]
    split
    · exact hacc
    · exact toDigitsCore_isDigit f (n / 10) _ hacc

theorem toDigitsCore_ne_nil : ∀ (f n : Nat) (acc : List Char),
    acc ≠ [] → Nat.toDigitsCore 10 f n acc ≠ []
  | 0, _, acc, h => by simpa [Nat.toDigitsCore] using h
  | f + 1, n, acc, _ => by
    simp only [Nat.toDigitsCore]
    split
    · simp
    · exact toDigitsCore_ne_nil f (n / 10) _ (by simp)

theorem repr_isDigit (n : Nat) : ∀ c ∈ (Nat.repr n).data, c.isDigit = true := by
  show ∀ c ∈ Nat.toDigitsCore 10 (n + 1) n [], c.isDigit = true
  exact toDigitsCore_isDigit (n + 1) n [] (fun c hc => by simp at hc)

theorem repr_ne_nil (n : Nat) : (Nat.repr n).data ≠ [] := by
  show Nat.toDigitsCore 10 (n + 1) n [] ≠ []
  simp only [Nat.toDigitsCore]
  split
  · simp
  · exact toDigitsCore_ne_nil n (n / 10) _ (by simp)

theorem readMarkers_append_plain : ∀ (p : List Char), '$' ∉ p → ∀ (t : List Char),
    readMarkers (p ++ t) = readMarkers t
  | [], _, t => rfl
  | c :: p, hp, t => by
    have hc : c ≠ '$' := fun h => hp (h ▸ List.mem_cons_self _ _)
    have hp2 : '$' ∉ p := fun h => hp (List.mem_cons_of_mem _ h)
    rw [List.cons_append]
    simp only [readMarkers, hc, if_false, readMarkers_append_plain p hp2 t]

theorem takeWhile_digits : ∀ (ds t : List Char), (∀ c ∈ ds, c.isDigit = true) →
    StartsPlain t → (ds ++ t).takeWhile Char.isDigit = ds
  | [], t, _, ht => by
    rcases ht with ht | ⟨d, rest, ht, hd⟩
    · rw [ht]; rfl
    · rw [ht]; simp [List.takeWhile, hd]
  | c :: ds, t, h, ht => by
    have hc : c.isDigit = true := h c (List.mem_cons_self _ _)
    have ih := takeWhile_digits ds t (fun x hx => h x (List.mem_cons_of_mem _ hx)) ht
    rw [List.cons_append]
    simp only [List.takeWhile, hc, ih]

theorem readMarkers_marker (ds t : List Char) (hds : ∀ c ∈ ds, c.isDigit = true)
    (hne : ds ≠ []) (ht : StartsPlain t) :
    readMarkers ('$' :: (ds ++ t)) = ds :: readMarkers t := by
  have hnd : '$' ∉ ds := by
    intro h
    have := hds _ h
    exact absurd this (by decide)
  simp only [readMarkers, if_true, takeWhile_digits ds t hds ht, hne, if_false,
    readMarkers_append_plain ds hnd t]

theorem numbered_startsPlain (j : Nat) (q : List Char) (rest : List (List Char))
    (hq : StartsPlain q) : StartsPlain (numbered j (q :: rest)) := by
  rcases hq with hq | ⟨d, r, hq, hd⟩
  · subst hq
    cases rest with
    | nil => exact Or.inl rfl
    | cons r rest => exact Or.inr ⟨'$', _, rfl, by decide⟩
  · subst hq
    rw [numbered_cons_cons]
    exact Or.inr ⟨d, _, rfl, hd⟩

theorem readMarkers_numbered : ∀ (pieces : List (List Char)) (j : Nat),
    (∀ p ∈ pieces, '$' ∉ p) → (∀ p ∈ pieces.tail, StartsPlain p) →
    readMarkers (numbered j pieces) =
      (List.range (pieces.length - 1)).map (fun i => (Nat.repr (j + i + 1)).data)
  | [], j, _, _ => rfl
  | [p], j, h1, _ => by
    have := readMarkers_append_plain p (h1 p (List.mem_cons_self _ _)) []
    simpa [numbered, readMarkers] using this
  | p :: q :: rest, j, h1, h2 => by
    have hp : '$' ∉ p := h1 p (List.mem_cons_self _ _)
    have hq : StartsPlain q := h2 q (by simp)
    have ih := readMarkers_numbered (q :: rest) (j + 1)
      (fun x hx => h1 x (List.mem_cons_of_mem _ hx))
      (fun x hx => h2 x (by simp at hx ⊢; exact Or.inr hx))
    simp only [numbered, List.append_assoc, List.cons_append,
      readMarkers_append_plain p hp,
      readMarkers_marker _ _ (repr_isDigit (j + 1)) (repr_ne_nil (j + 1))
        (numbered_startsPlain (j + 1) q rest hq), ih]
    simp only [List.length_cons, Nat.add_sub_cancel]
    rw [List.range_succ_eq_map]
    simp only [List.map_cons, List.map_map, Nat.add_zero, List.cons.injEq, true_and]
    apply List.map_congr_left
    intro i _
    simp only [Function.comp, Nat.succ_eq_add_one]
    congr 2
    omega

theorem splitMarks_sub : ∀ (t : List Char), ∀ p ∈ splitMarks t, ∀ x ∈ p, x ∈ t
  | [], p, hp, x, hx => by
    simp only [splitMarks, List.mem_singleton] at hp
    subst hp
    simp at hx
  | c :: cs, p, hp, x, hx => by
    have ih := splitMarks_sub cs
    by_cases hc : c = '?'
    · simp only [splitMarks, hc, if_true, List.mem_cons] at hp
      rcases hp with hp | hp
      · subst hp; simp at hx
      · exact List.mem_cons_of_mem _ (ih p hp x hx)
    · cases h : splitMarks cs with
      | nil => exact absurd h (splitMarks_ne_nil cs)
      | cons q rest =>
        rw [h] at ih
        simp only [splitMarks, hc, if_false, h, List.mem_cons] at hp
        rcases hp with hp | hp
        · subst hp
          rcases List.mem_cons.1 hx with e | e
          · rw [e]; exact List.mem_cons_self _ _
          · exact List.mem_cons_of_mem _ (ih q (List.mem_cons_self _ _) x e)
        · exact List.mem_cons_of_mem _ (ih p (List.mem_cons_of_mem _ hp) x hx)

theorem splitMarks_head : ∀ (t : List Char), ∃ q rest, splitMarks t = q :: rest ∧
    (q = [] ∨ ∃ d r, q = d :: r ∧ ∃ t2, t = d :: t2)
  | [] => ⟨[], [], rfl, Or.inl rfl⟩
  | c :: cs => by
    by_cases hc : c = '?'
    · exact ⟨[], splitMarks cs, by simp [splitMarks, hc], Or.inl rfl⟩
    · cases h : splitMarks cs with
      | nil => exact absurd h (splitMarks_ne_nil cs)
      | cons q rest =>
        exact ⟨c :: q, rest, by simp [splitMarks, hc, h], Or.inr ⟨c, q, rfl, cs, rfl⟩⟩

theorem marksFollowed_pieces : ∀ (t : List Char), marksFollowed t = true →
    ∀ p ∈ (splitMarks t).tail, StartsPlain p
  | [], _, p, hp => by simp [splitMarks] at hp
  | c :: cs, hm, p, hp => by
    have hm2 : marksFollowed cs = true := by
      simp only [marksFollowed, Bool.and_eq_true] at hm
      exact hm.2
    have ih := marksFollowed_pieces cs hm2
    by_cases hc : c = '?'
    · simp only [splitMarks, hc, if_true, List.tail_cons] at hp
      obtain ⟨q, rest, hs, hq⟩ := splitMarks_head cs
      rw [hs] at hp ih
      rcases List.mem_cons.1 hp with e | e
      · subst e
        rcases hq with hq | ⟨d, r, hq, t2, ht⟩
        · exact Or.inl hq
        · subst ht
          simp only [marksFollowed, hc, if_true, Bool.and_eq_true, Bool.not_eq_true'] at hm
          exact Or.inr ⟨d, r, hq, hm.1⟩
      · exact ih p (by simpa using e)
    · cases h : splitMarks cs with
      | nil => exact absurd h (splitMarks_ne_nil cs)
      | cons q rest =>
        rw [h] at ih
        simp only [splitMarks, hc, if_false, h, List.tail_cons] at hp
        exact ih p (by simpa using hp)

theorem marksFollowed_cons_ne (c : Char) (hc : c ≠ '?') (t : List Char) :
    marksFollowed (c :: t) = marksFollowed t := by
  simp [marksFollowed, hc]

theorem marksFollowed_append_plain : ∀ (p : List Char), '?' ∉ p → ∀ (t : List Char),
    marksFollowed (p ++ t) = marksFollowed t
  | [], _, t => rfl
  | c :: p, hp, t => by
    have hc : c ≠ '?' := fun h => hp (h ▸ List.mem_cons_self _ _)
    have hp2 : '?' ∉ p := fun h => hp (List.mem_cons_of_mem _ h)
    rw [List.cons_append, marksFollowed_cons_ne c hc, marksFollowed_append_plain p hp2 t]

theorem marksFollowed_mark (d : Char) (t : List Char) (hd : d.isDigit = false) :
    marksFollowed ('?' :: d :: t) = marksFollowed (d :: t) := by
  simp [marksFollowed, hd]

theorem marksFollowed_replicate : ∀ (k : Nat) (d : Char) (t : List Char),
    d.isDigit = false →
    marksFollowed ('?' :: ((List.replicate k ", ?".data).flatten ++ d :: t)) =
      marksFollowed (d :: t)
  | 0, d, t, hd => by
    simp only [List.replicate, List.flatten_nil, List.nil_append]
    exact marksFollowed_mark d t hd
  | k + 1, d, t, hd => by
    have ih := marksFollowed_replicate k d t hd
    have e : (List.replicate (k + 1) ", ?".data).flatten ++ d :: t =
        ',' :: ' ' :: '?' :: ((List.replicate k ", ?".data).flatten ++ d :: t) := by
      rw [List.replicate_succ, List.flatten_cons]
      rfl
    rw [e, marksFollowed_mark ',' _ (by decide), marksFollowed_cons_ne ',' (by decide),
      marksFollowed_cons_ne ' ' (by decide), ih]

theorem marksFollowed_clause (Q : QueryPkg) (baseTable labelTable : String) (c : Criterion)
    (hc : MarkFree Q baseTable labelTable c) (hR : c.RightOp ≠ []) (d : Char)
    (t : List Char) (hd : d.isDigit = false) :
    marksFollowed ((specExpandedClause Q baseTable labelTable c).data ++ d :: t) =
      marksFollowed (d :: t) := by
  obtain ⟨l, o, r, ty⟩ := c
  obtain ⟨hf, hl, ho⟩ := hc
  unfold NoMark at hf hl ho
  simp only at hf hl ho hR
  have d1 : Char.isDigit ' ' = false := by decide
  have d2 : Char.isDigit ')' = false := by decide
  cases r with
  | nil => exact absurd rfl hR
  | cons r0 rs =>
    have hrep := stringsJoin_replicate_data rs.length
    have hk : ∀ (d2 : Char) (t2 : List Char), d2.isDigit = false →
        marksFollowed ('?' :: ((List.replicate rs.length [',', ' ', '?']).flatten ++ d2 :: t2)) =
          marksFollowed (d2 :: t2) := marksFollowed_replicate rs.length
    cases ty
    · obtain ⟨hb, hf2⟩ := hf rfl
      by_cases hm : Q.IsMultiVariate o = true <;> by_cases hn : Q.IsNullable o = true <;>
      simp [specExpandedClause, clauseWith, plainClauseWith, specWrap,
        specExpandedPlaceholder, hm, hn, String.data_append, hrep,
        marksFollowed_append_plain _ hb, marksFollowed_append_plain _ hf2,
        marksFollowed_append_plain _ ho, marksFollowed_cons_ne, marksFollowed_mark, hk,
        d1, d2, hd]
    · have hl2 := hl rfl
      by_cases hm : Q.IsMultiVariate o = true <;>
      simp [specExpandedClause, clauseWith, plainClauseWith, specWrap,
        specExpandedPlaceholder, hm, String.data_append, hrep,
        marksFollowed_append_plain _ hl2,
        marksFollowed_append_plain _ ho, marksFollowed_cons_ne, marksFollowed_mark, hk,
        d1, d2, hd]

theorem marksFollowed_join (Q : QueryPkg) (baseTable labelTable : String) :
    ∀ (criteria : List Criterion),
      (∀ c ∈ criteria, c.RightOp ≠ [] ∧ MarkFree Q baseTable labelTable c) →
      ∀ (d : Char) (t : List Char), d.isDigit = false →
        marksFollowed ((stringsJoin (criteria.map (specExpandedClause Q baseTable labelTable))
          " AND ").data ++ d :: t) = marksFollowed (d :: t)
  | [], _, d, t, _ => rfl
  | [c], h, d, t, hd => by
    have hc := h c (List.mem_cons_self _ _)
    simp only [List.map_cons, List.map_nil, stringsJoin]
    exact marksFollowed_clause Q baseTable labelTable c hc.2 hc.1 d t hd
  | c :: e :: rest, h, d, t, hd => by
    have hc := h c (List.mem_cons_self _ _)
    have ih := marksFollowed_join Q baseTable labelTable (e :: rest)
      (fun x hx => h x (List.mem_cons_of_mem _ hx)) d t hd
    have hand2 : '?' ∉ ['A', 'N', 'D', ' '] := by decide
    simp only [List.map_cons, stringsJoin, String.data_append, List.append_assoc] at ih ⊢
    rw [List.cons_append,
      marksFollowed_clause Q baseTable labelTable c hc.2 hc.1 ' ' _ (by decide),
      marksFollowed_cons_ne ' ' (by decide), marksFollowed_append_plain _ hand2, ih]

theorem marksFollowed_text (Q : QueryPkg) (sqlQuery baseTable labelTable : String)
    (criteria : List Criterion) (hq : NoMark sqlQuery)
    (h : ∀ c ∈ criteria, c.RightOp ≠ [] ∧ MarkFree Q baseTable labelTable c) :
    marksFollowed (sqlQuery ++ " WHERE " ++
      (stringsJoin (criteria.map (specExpandedClause Q baseTable labelTable)) " AND " ++
        ";")).data = true := by
  have hw : '?' ∉ " WHERE ".data := by decide
  unfold NoMark at hq
  simp only [String.data_append, List.append_assoc]
  rw [marksFollowed_append_plain _ hq, marksFollowed_append_plain _ hw,
    marksFollowed_join Q baseTable labelTable criteria h ';' [] (by decide)]
  rfl

theorem noDollar_clause (Q : QueryPkg) (baseTable labelTable : String) (c : Criterion)
    (hc : DollarFree Q baseTable labelTable c) :
    '$' ∉ (specExpandedClause Q baseTable labelTable c).data := by
  obtain ⟨l, o, r, ty⟩ := c
  obtain ⟨hf, hl, ho⟩ := hc
  unfold NoDollar at hf hl ho
  simp only at hf hl ho
  have hrep : ∀ k : Nat, '$' ∉ (stringsJoin (List.replicate k "?") ", ").data := by
    intro k
    cases k with
    | zero => simp [stringsJoin]
    | succ k =>
      rw [stringsJoin_replicate_data]
      simp [List.mem_replicate]
  have hr := hrep r.length
  cases ty
  · obtain ⟨hb, hf2⟩ := hf rfl
    by_cases hm : Q.IsMultiVariate o = true <;> by_cases hn : Q.IsNullable o = true <;>
    simp [specExpandedClause, clauseWith, plainClauseWith, specWrap,
      specExpandedPlaceholder, hm, hn, String.data_append, hb, hf2, ho, hr]
  · have hl2 := hl rfl
    by_cases hm : Q.IsMultiVariate o = true <;>
    simp [specExpandedClause, clauseWith, plainClauseWith, specWrap,
      specExpandedPlaceholder, hm, String.data_append, hl2, ho, hr]

theorem noDollar_join (Q : QueryPkg) (baseTable labelTable : String) :
    ∀ (criteria : List Criterion),
      (∀ c ∈ criteria, DollarFree Q baseTable labelTable c) →
      '$' ∉ (stringsJoin (criteria.map (specExpandedClause Q baseTable labelTable))
        " AND ").data
  | [], _ => by simp [stringsJoin]
  | [c], h => by
    simp only [List.map_cons, List.map_nil, stringsJoin]
    exact noDollar_clause Q baseTable labelTable c (h c (List.mem_cons_self _ _))
  | c :: e :: rest, h => by
    have hc := noDollar_clause Q baseTable labelTable c (h c (List.mem_cons_self _ _))
    have ih := noDollar_join Q baseTable labelTable (e :: rest)
      (fun x hx => h x (List.mem_cons_of_mem _ hx))
    have hand : '$' ∉ " AND ".data := by decide
    simp only [List.map_cons, stringsJoin, String.data_append, List.mem_append, not_or] at ih ⊢
    exact ⟨⟨hc, hand⟩, ih⟩

theorem noDollar_text (Q : QueryPkg) (sqlQuery baseTable labelTable : String)
    (criteria : List Criterion) (hq : NoDollar sqlQuery)
    (h : ∀ c ∈ criteria, DollarFree Q baseTable labelTable c) :
    '$' ∉ (sqlQuery ++ " WHERE " ++
      (stringsJoin (criteria.map (specExpandedClause Q baseTable labelTable)) " AND " ++
        ";")).data := by
  have hw : '$' ∉ " WHERE ".data := by decide
  have hs : '$' ∉ ";".data := by decide
  have hj := noDollar_join Q baseTable labelTable criteria h
  unfold NoDollar at hq
  simp only [String.data_append, List.mem_append, not_or]
  exact ⟨⟨hq, hw⟩, hj, hs⟩

/-! ## The compiler: clause assembly -/

/-- C2: for a non-empty criteria list (each criterion with at least one right-operand
value) the text assembled before expansion and rebind is the input query, " WHERE ", one
clause per criterion in input order joined by " AND ", and ";"; `buildQueryWithParams`
hands exactly this text to `sqlx.In` (when an operator is multi-variate) and `Rebind`. -/
theorem assembleQuery_where_and (Q : QueryPkg) (extContext : ExtContext)
    (sqlQuery baseTable labelTable : String) (criteria : List Criterion)
    (hne : criteria ≠ []) (hinv : ∀ c ∈ criteria, c.RightOp ≠ []) :
    ∃ text params,
      text = sqlQuery ++ " WHERE " ++
        (stringsJoin (criteria.map (specClause Q baseTable labelTable)) " AND " ++ ";") ∧
      (criteria.map (specClause Q baseTable labelTable)).length = criteria.length ∧
      assembleQuery Q sqlQuery baseTable labelTable criteria = some (text, params) ∧
      buildQueryWithParams Q extContext sqlQuery baseTable labelTable criteria =
        (if hasMultiVariateOp Q criteria then
          match sqlxIn text params with
          | .error e => GoResult.err e
          | .ok (q, ps) => GoResult.ok (extContext.Rebind q, ps)
         else GoResult.ok (extContext.Rebind text, params)) := by
  refine ⟨_, _, rfl, by simp, assembleQuery_eq Q sqlQuery baseTable labelTable criteria hinv, ?_⟩
  have hlen : criteria.length ≠ 0 := by
    cases criteria with
    | nil => exact absurd rfl hne
    | cons c cs => simp
  simp only [buildQueryWithParams, hlen, if_false,
    assembleQuery_eq Q sqlQuery baseTable labelTable criteria hinv]

theorem assembleQuery_where_and_witness :
    ([⟨"a", "in", ["A", "B"], .FieldQuery⟩, ⟨"k", "=", ["v"], .LabelQuery⟩] : List Criterion) ≠ [] ∧
    ∃ text params,
      text = "SELECT * FROM t" ++ " WHERE " ++
        (stringsJoin (([⟨"a", "in", ["A", "B"], .FieldQuery⟩, ⟨"k", "=", ["v"], .LabelQuery⟩] :
          List Criterion).map (specClause stdQuery "t" "tl")) " AND " ++ ";") ∧
      (([⟨"a", "in", ["A", "B"], .FieldQuery⟩, ⟨"k", "=", ["v"], .LabelQuery⟩] :
          List Criterion).map (specClause stdQuery "t" "tl")).length = 2 ∧
      assembleQuery stdQuery "SELECT * FROM t" "t" "tl"
        [⟨"a", "in", ["A", "B"], .FieldQuery⟩, ⟨"k", "=", ["v"], .LabelQuery⟩] =
          some (text, params) ∧
      buildQueryWithParams stdQuery pgExtContext "SELECT * FROM t" "t" "tl"
        [⟨"a", "in", ["A", "B"], .FieldQuery⟩, ⟨"k", "=", ["v"], .LabelQuery⟩] =
        (if hasMultiVariateOp stdQuery
            [⟨"a", "in", ["A", "B"], .FieldQuery⟩, ⟨"k", "=", ["v"], .LabelQuery⟩] then
          match sqlxIn text params with
          | .error e => GoResult.err e
          | .ok (q, ps) => GoResult.ok (pgExtContext.Rebind q, ps)
         else GoResult.ok (pgExtContext.Rebind text, params)) :=
  ⟨by decide,
   assembleQuery_where_and stdQuery pgExtContext "SELECT * FROM t" "t" "tl"
     [⟨"a", "in", ["A", "B"], .FieldQuery⟩, ⟨"k", "=", ["v"], .LabelQuery⟩]
     (by decide) (by decide)⟩

/-- C3: for a LabelQuery criterion the loop body of `buildQueryWithParams` appends the
clause `<labelTable>.key = ? AND <labelTable>.val <op> <placeholder>` (the label table in
both positions) and appends to the argument list first the left operand (the label key),
then the right operand; so the text and arguments assembled for that criterion alone are
`<query> WHERE <clause>;` and `[key, right operand]`. -/
theorem criterionStep_labelQuery (Q : QueryPkg) (sqlQuery baseTable labelTable : String)
    (queries : List String) (queryParams : List Arg) (c : Criterion) (r0 : String)
    (rs : List String) (hT : c.Typ = CriterionType.LabelQuery) (hR : c.RightOp = r0 :: rs) :
    criterionStep Q baseTable labelTable (queries, queryParams) c =
      some (queries ++ [labelTable ++ ".key = ? AND " ++ labelTable ++ ".val " ++
              translateOperationToSQLEquivalent Q c.Operator ++ " " ++
              (if Q.IsMultiVariate c.Operator then "(?)" else "?")],
            queryParams ++ [Arg.str c.LeftOp,
              if Q.IsMultiVariate c.Operator then Arg.strs (r0 :: rs) else Arg.str r0]) ∧
    assembleQuery Q sqlQuery baseTable labelTable [c] =
      some (sqlQuery ++ " WHERE " ++ (labelTable ++ ".key = ? AND " ++ labelTable ++ ".val " ++
              translateOperationToSQLEquivalent Q c.Operator ++ " " ++
              (if Q.IsMultiVariate c.Operator then "(?)" else "?") ++ ";"),
            [Arg.str c.LeftOp,
              if Q.IsMultiVariate c.Operator then Arg.strs (r0 :: rs) else Arg.str r0]) := by
  obtain ⟨l, o, r, t⟩ := c
  simp only at hT hR
  subst hT hR
  by_cases hm : Q.IsMultiVariate o = true <;>
    simp [assembleQuery, criteriaLoop, criterionStep, buildRightOp, stringsJoin, hm]

theorem criterionStep_labelQuery_witness :
    (⟨"k", "=", ["v"], .LabelQuery⟩ : Criterion).Typ = CriterionType.LabelQuery ∧
    (⟨"k", "=", ["v"], .LabelQuery⟩ : Criterion).RightOp = "v" :: [] ∧
    criterionStep stdQuery "t" "tl" ([], []) ⟨"k", "=", ["v"], .LabelQuery⟩ =
      some ([] ++ ["tl" ++ ".key = ? AND " ++ "tl" ++ ".val " ++
              translateOperationToSQLEquivalent stdQuery "=" ++ " " ++
              (if stdQuery.IsMultiVariate "=" then "(?)" else "?")],
            [] ++ [Arg.str "k",
              if stdQuery.IsMultiVariate "=" then Arg.strs ("v" :: []) else Arg.str "v"]) :=
  ⟨rfl, rfl, (criterionStep_labelQuery stdQuery "SELECT * FROM t" "t" "tl" [] []
    ⟨"k", "=", ["v"], .LabelQuery⟩ "v" [] rfl rfl).1⟩

/-- C4: for a FieldQuery criterion whose operator is not nullable the loop body of
`buildQueryWithParams` appends exactly `<baseTable>.<field> <op> <placeholder>`, with `?`
for a single-valued and `(?)` for a multi-variate operator, and appends only the right
operand (not the field name) to the argument list; so the text and arguments assembled
for that criterion alone are `<query> WHERE <clause>;` and `[right operand]`. -/
theorem criterionStep_fieldQuery (Q : QueryPkg) (sqlQuery baseTable labelTable : String)
    (queries : List String) (queryParams : List Arg) (c : Criterion) (r0 : String)
    (rs : List String) (hT : c.Typ = CriterionType.FieldQuery) (hR : c.RightOp = r0 :: rs)
    (hN : Q.IsNullable c.Operator = false) :
    criterionStep Q baseTable labelTable (queries, queryParams) c =
      some (queries ++ [baseTable ++ "." ++ c.LeftOp ++ " " ++
              translateOperationToSQLEquivalent Q c.Operator ++ " " ++
              (if Q.IsMultiVariate c.Operator then "(?)" else "?")],
            queryParams ++
              [if Q.IsMultiVariate c.Operator then Arg.strs (r0 :: rs) else Arg.str r0]) ∧
    assembleQuery Q sqlQuery baseTable labelTable [c] =
      some (sqlQuery ++ " WHERE " ++ (baseTable ++ "." ++ c.LeftOp ++ " " ++
              translateOperationToSQLEquivalent Q c.Operator ++ " " ++
              (if Q.IsMultiVariate c.Operator then "(?)" else "?") ++ ";"),
            [if Q.IsMultiVariate c.Operator then Arg.strs (r0 :: rs) else Arg.str r0]) := by
  obtain ⟨l, o, r, t⟩ := c
  simp only at hT hR hN
  subst hT hR
  by_cases hm : Q.IsMultiVariate o = true <;>
    simp [assembleQuery, criteriaLoop, criterionStep, buildRightOp, stringsJoin, hm, hN]

theorem criterionStep_fieldQuery_witness :
    (⟨"a", "in", ["A", "B"], .FieldQuery⟩ : Criterion).Typ = CriterionType.FieldQuery ∧
    (⟨"a", "in", ["A", "B"], .FieldQuery⟩ : Criterion).RightOp = "A" :: ["B"] ∧
    stdQuery.IsNullable "in" = false ∧
    criterionStep stdQuery "t" "tl" ([], []) ⟨"a", "in", ["A", "B"], .FieldQuery⟩ =
      some ([] ++ ["t" ++ "." ++ "a" ++ " " ++
              translateOperationToSQLEquivalent stdQuery "in" ++ " " ++
              (if stdQuery.IsMultiVariate "in" then "(?)" else "?")],
            [] ++ [if stdQuery.IsMultiVariate "in" then Arg.strs ("A" :: ["B"])
                   else Arg.str "A"]) :=
  ⟨rfl, rfl, by decide,
   (criterionStep_fieldQuery stdQuery "SELECT * FROM t" "t" "tl" [] []
    ⟨"a", "in", ["A", "B"], .FieldQuery⟩ "A" ["B"] rfl rfl (by decide)).1⟩

/-- C5: the emitted clause is the wrapping `(<clause> OR <baseTable>.<field> IS NULL)`
exactly when the criterion is a FieldQuery with a nullable operator; otherwise it is the
plain clause, without IS NULL alternative; for the equals-or-nil operator with value V it
is `(<baseTable>.<field> = ? OR <baseTable>.<field> IS NULL)` with V as only argument. -/
theorem criterionStep_nullable_wrap (Q : QueryPkg) (baseTable labelTable : String)
    (queries : List String) (queryParams : List Arg) (c : Criterion)
    (hR : c.RightOp ≠ []) :
    (∃ clause params,
      criterionStep Q baseTable labelTable (queries, queryParams) c =
        some (queries ++ [clause], params) ∧
      (clause = specWrap baseTable c (specPlainClause Q baseTable labelTable c) ↔
        (c.Typ = CriterionType.FieldQuery ∧ Q.IsNullable c.Operator = true)) ∧
      (¬ (c.Typ = CriterionType.FieldQuery ∧ Q.IsNullable c.Operator = true) →
        clause = specPlainClause Q baseTable labelTable c)) ∧
    (∀ field V : String, Q.DistinctCases → Q.IsNullable Q.EqualsOrNilOperator = true →
      Q.IsMultiVariate Q.EqualsOrNilOperator = false →
      criterionStep Q baseTable labelTable (queries, queryParams)
          ⟨field, Q.EqualsOrNilOperator, [V], CriterionType.FieldQuery⟩ =
        some (queries ++ ["(" ++ baseTable ++ "." ++ field ++ " = ? OR " ++ baseTable ++
                "." ++ field ++ " IS NULL)"], queryParams ++ [Arg.str V])) := by
  refine ⟨⟨_, _, criterionStep_eq Q baseTable labelTable (queries, queryParams) c hR, ?_, ?_⟩,
    fun field V hD hN hS =>
      criterionStep_eqOrNil Q baseTable labelTable (queries, queryParams) field V hD hN hS⟩
  · constructor
    · intro h
      by_contra hc
      rw [specClause, clauseWith, if_neg hc] at h
      exact specWrap_ne baseTable c _ h.symm
    · intro hc
      rw [specClause, clauseWith, if_pos hc, specPlainClause]
  · intro hc
    rw [specClause, clauseWith, if_neg hc, specPlainClause]

theorem criterionStep_nullable_wrap_witness :
    (⟨"f", "eqornil", ["V"], .FieldQuery⟩ : Criterion).RightOp ≠ [] ∧
    criterionStep stdQuery "t" "tl" ([], []) ⟨"f", "eqornil", ["V"], .FieldQuery⟩ =
      some ([] ++ ["(" ++ "t" ++ "." ++ "f" ++ " = ? OR " ++ "t" ++ "." ++ "f" ++ " IS NULL)"],
        [] ++ [Arg.str "V"]) :=
  ⟨by decide,
   (criterionStep_nullable_wrap stdQuery "t" "tl" [] [] ⟨"f", "eqornil", ["V"], .FieldQuery⟩
      (by decide)).2 "f" "V" (by unfold QueryPkg.DistinctCases; decide) (by decide) (by decide)⟩

/-- C6: `translateOperationToSQLEquivalent` maps less-than to "<", greater-than to ">",
not-in to "NOT IN", equals-or-nil to "=", and every other operator to the upper-cased form
of its own token, `strings.ToUpper` of it: on an ASCII token the letters a..z become A..Z
("in" gives "IN", "like" gives "LIKE", "=" gives "="), a rune above ASCII is mapped by the
Unicode case table. -/
theorem translateOperationToSQLEquivalent_table (Q : QueryPkg) (hD : Q.DistinctCases) :
    translateOperationToSQLEquivalent Q Q.LessThanOperator = "<" ∧
    translateOperationToSQLEquivalent Q Q.GreaterThanOperator = ">" ∧
    translateOperationToSQLEquivalent Q Q.NotInOperator = "NOT IN" ∧
    translateOperationToSQLEquivalent Q Q.EqualsOrNilOperator = "=" ∧
    (∀ op : Operator, op ≠ Q.LessThanOperator → op ≠ Q.GreaterThanOperator →
      op ≠ Q.NotInOperator → op ≠ Q.EqualsOrNilOperator →
      translateOperationToSQLEquivalent Q op = stringsToUpper Q.UnicodeToUpper op) ∧
    (∀ op : Operator, (∀ c ∈ op.data, c.toNat < 128) →
      stringsToUpper Q.UnicodeToUpper op = String.mk (op.data.map Char.toUpper)) ∧
    (∀ c : Char, 128 ≤ c.toNat →
      stringsToUpper Q.UnicodeToUpper (String.mk [c]) = String.mk [Q.UnicodeToUpper c]) ∧
    stringsToUpper Q.UnicodeToUpper "in" = "IN" ∧
    stringsToUpper Q.UnicodeToUpper "like" = "LIKE" ∧
    stringsToUpper Q.UnicodeToUpper "=" = "=" := by
  obtain ⟨h1, h2, h3, h4, h5, h6⟩ := hD
  refine ⟨by simp [translateOperationToSQLEquivalent], ?_, ?_, ?_, ?_, ?_, ?_, rfl, rfl, rfl⟩
  · simp [translateOperationToSQLEquivalent, Ne.symm h1]
  · simp [translateOperationToSQLEquivalent, Ne.symm h2, Ne.symm h4]
  · simp [translateOperationToSQLEquivalent, Ne.symm h3, Ne.symm h5, Ne.symm h6]
  · intro op o1 o2 o3 o4
    simp [translateOperationToSQLEquivalent, o1, o2, o3, o4]
  · intro op hop
    unfold stringsToUpper
    congr 1
    apply List.map_congr_left
    intro c hc
    simp [hop c hc]
  · intro c hc
    have hlt : ¬ c.toNat < 128 := by omega
    simp [stringsToUpper, hlt]

theorem translateOperationToSQLEquivalent_table_witness :
    stdQuery.DistinctCases ∧
    translateOperationToSQLEquivalent stdQuery "lt" = "<" ∧
    translateOperationToSQLEquivalent stdQuery "gt" = ">" ∧
    translateOperationToSQLEquivalent stdQuery "notin" = "NOT IN" ∧
    translateOperationToSQLEquivalent stdQuery "eqornil" = "=" ∧
    translateOperationToSQLEquivalent stdQuery "in" = "IN" ∧
    translateOperationToSQLEquivalent stdQuery "é" = "É" :=
  have h := translateOperationToSQLEquivalent_table stdQuery
    (by unfold QueryPkg.DistinctCases; decide)
  ⟨by unfold QueryPkg.DistinctCases; decide, h.1, h.2.1, h.2.2.1, h.2.2.2.1,
    (h.2.2.2.2.1 "in" (by decide) (by decide) (by decide) (by decide)).trans
      h.2.2.2.2.2.2.2.1,
    (h.2.2.2.2.1 "é" (by decide) (by decide) (by decide) (by decide)).trans (by decide)⟩

/-- C7: with an empty criteria list `buildQueryWithParams` succeeds and returns the input
query followed by ";", without WHERE clause, and an empty argument list. -/
theorem buildQueryWithParams_empty (Q : QueryPkg) (extContext : ExtContext)
    (sqlQuery baseTable labelTable : String) :
    buildQueryWithParams Q extContext sqlQuery baseTable labelTable [] =
      GoResult.ok (sqlQuery ++ ";", []) :=
  buildQuery_nil Q extContext sqlQuery baseTable labelTable

/-! ## The compiler: expansion and arguments -/

/-- C8 as stated fails: a FieldQuery criterion with the IN operator and the three values
A, B, C whose field name contains a `?` makes `buildQueryWithParams` return an error
instead of a query and three arguments. -/
theorem in_list_fails_with_mark_in_field :
    buildQueryWithParams stdQuery pgExtContext "SELECT * FROM t" "t" "tl"
        [⟨"a?", "in", ["A", "B", "C"], .FieldQuery⟩] =
      GoResult.err "number of bindVars exceeds arguments" := by
  decide

/-- C8 (amended): for a FieldQuery criterion with the IN operator and n >= 1 right-operand
values, when neither the input query nor the base table name nor the field name contains
a `?`, `buildQueryWithParams` returns exactly those n values in order as argument list
and the rebound query `<query> WHERE <baseTable>.<field> IN (?, ..., ?);` whose IN list
holds exactly n positional markers; for A, B, C on postgres the list is `($1, $2, $3)`. -/
theorem buildQueryWithParams_in_expansion (Q : QueryPkg) (extContext : ExtContext)
    (sqlQuery baseTable labelTable field : String) (values : List String)
    (hIn : translateOperationToSQLEquivalent Q Q.InOperator = "IN")
    (hM : Q.IsMultiVariate Q.InOperator = true) (hN : Q.IsNullable Q.InOperator = false)
    (hv : 1 ≤ values.length)
    (hq : NoMark sqlQuery) (hb : NoMark baseTable) (hf : NoMark field) :
    buildQueryWithParams Q extContext sqlQuery baseTable labelTable
        [⟨field, Q.InOperator, values, CriterionType.FieldQuery⟩] =
      GoResult.ok (extContext.Rebind (sqlQuery ++ " WHERE " ++ (baseTable ++ "." ++ field ++
          " IN (" ++ stringsJoin (List.replicate values.length "?") ", " ++ ")" ++ ";")),
        values.map Arg.str) ∧
    (values.map Arg.str).length = values.length ∧
    (stringsJoin (List.replicate values.length "?") ", ").data.count '?' = values.length ∧
    buildQueryWithParams stdQuery pgExtContext "SELECT * FROM t" "t" "tl"
        [⟨"f", "in", ["A", "B", "C"], CriterionType.FieldQuery⟩] =
      GoResult.ok ("SELECT * FROM t WHERE t.f IN ($1, $2, $3);",
        [Arg.str "A", Arg.str "B", Arg.str "C"]) := by
  have hvne : values ≠ [] := by
    intro h; rw [h] at hv; simp at hv
  have hIn2 : NoMark (translateOperationToSQLEquivalent Q Q.InOperator) := by
    rw [hIn]; decide
  have hok := buildQueryWithParams_ok Q extContext sqlQuery baseTable labelTable
    [⟨field, Q.InOperator, values, CriterionType.FieldQuery⟩] (by simp)
    (by intro c hc; rw [List.mem_singleton] at hc; subst hc; exact hvne)
    (by
      intro _
      refine ⟨hq, ?_⟩
      intro c hc
      rw [List.mem_singleton] at hc
      subst hc
      exact ⟨fun _ => ⟨hb, hf⟩, fun h => by simp at h, hIn2⟩)
  refine ⟨?_, by simp, ?_, by decide⟩
  · rw [hok]
    simp only [List.map_cons, List.map_nil, stringsJoin, specExpandedClause, clauseWith,
      plainClauseWith, specExpandedPlaceholder, specFlatArgs, hM, hN, hIn, if_true,
      Bool.false_eq_true, and_false, if_false, reduceCtorEq, List.nil_append,
      List.flatten_cons, List.flatten_nil, List.append_nil]
    congr 3
    apply String.ext
    simp only [String.data_append, List.append_assoc]
    rfl
  · obtain ⟨k, hk⟩ : ∃ k, values.length = k + 1 := ⟨values.length - 1, by omega⟩
    rw [hk, stringsJoin_replicate_data, List.count_cons_self, count_marks_replicate]

theorem buildQueryWithParams_in_expansion_witness :
    1 ≤ (["A", "B", "C"] : List String).length ∧ NoMark "SELECT * FROM t" ∧ NoMark "t" ∧
    NoMark "f" ∧
    buildQueryWithParams stdQuery pgExtContext "SELECT * FROM t" "t" "tl"
        [⟨"f", stdQuery.InOperator, ["A", "B", "C"], CriterionType.FieldQuery⟩] =
      GoResult.ok (pgExtContext.Rebind ("SELECT * FROM t" ++ " WHERE " ++ ("t" ++ "." ++ "f" ++
          " IN (" ++ stringsJoin (List.replicate (["A", "B", "C"] : List String).length "?")
            ", " ++ ")" ++ ";")),
        (["A", "B", "C"] : List String).map Arg.str) :=
  ⟨by decide, by decide, by decide, by decide,
   (buildQueryWithParams_in_expansion stdQuery pgExtContext "SELECT * FROM t" "t" "tl" "f"
      ["A", "B", "C"] (by decide) (by decide) (by decide) (by decide) (by decide) (by decide)
      (by decide)).1⟩

/-- C9 as stated fails: in a list whose criteria all carry right-operand values, a
multi-variate criterion on a field name containing `?` makes `buildQueryWithParams`
return an error, hence no argument list. -/
theorem args_lost_with_mark_in_field :
    (∀ c ∈ ([⟨"k", "=", ["v"], .LabelQuery⟩, ⟨"f?", "notin", ["x", "y"], .FieldQuery⟩] :
        List Criterion), 1 ≤ c.RightOp.length) ∧
    buildQueryWithParams stdQuery pgExtContext "SELECT * FROM t" "t" "tl"
        [⟨"k", "=", ["v"], .LabelQuery⟩, ⟨"f?", "notin", ["x", "y"], .FieldQuery⟩] =
      GoResult.err "number of bindVars exceeds arguments" := by
  decide

/-- C9 (amended): for a criteria list in which each criterion has at least one
right-operand value, whenever `buildQueryWithParams` returns without error its argument
list is the in-order concatenation, per criterion, of the left operand for a LabelQuery
followed by all right-operand values for a multi-variate operator or the first one
otherwise; it does return without error when no criterion is multi-variate, and also
when neither the input query nor the table, field and operator texts spliced into the
clauses contain a `?`. -/
theorem buildQueryWithParams_args (Q : QueryPkg) (extContext : ExtContext)
    (sqlQuery baseTable labelTable : String) (criteria : List Criterion)
    (hinv : ∀ c ∈ criteria, c.RightOp ≠ []) :
    (∀ q ps, buildQueryWithParams Q extContext sqlQuery baseTable labelTable criteria =
        GoResult.ok (q, ps) →
      ps = (criteria.map (fun c =>
        ((if c.Typ = CriterionType.LabelQuery then [c.LeftOp] else []) ++
          (if Q.IsMultiVariate c.Operator then c.RightOp else c.RightOp.take 1)).map
            Arg.str)).flatten) ∧
    (hasMultiVariateOp Q criteria = false →
      ∃ q, buildQueryWithParams Q extContext sqlQuery baseTable labelTable criteria =
        GoResult.ok (q, (criteria.map (specFlatArgs Q)).flatten)) ∧
    (NoMark sqlQuery → (∀ c ∈ criteria, MarkFree Q baseTable labelTable c) →
      ∃ q, buildQueryWithParams Q extContext sqlQuery baseTable labelTable criteria =
        GoResult.ok (q, (criteria.map (specFlatArgs Q)).flatten)) := by
  refine ⟨fun q ps h => buildQuery_args_flat Q extContext sqlQuery baseTable
    labelTable criteria hinv q ps h, ?_, ?_⟩
  · intro hm
    cases criteria with
    | nil => exact ⟨_, buildQuery_nil Q extContext sqlQuery baseTable labelTable⟩
    | cons c cs =>
      exact ⟨_, buildQueryWithParams_ok Q extContext sqlQuery baseTable labelTable (c :: cs)
        (by simp) hinv (fun h => by rw [hm] at h; simp at h)⟩
  · intro hq hc
    cases criteria with
    | nil => exact ⟨_, buildQuery_nil Q extContext sqlQuery baseTable labelTable⟩
    | cons c cs =>
      exact ⟨_, buildQueryWithParams_ok Q extContext sqlQuery baseTable labelTable (c :: cs)
        (by simp) hinv (fun _ => ⟨hq, hc⟩)⟩

theorem buildQueryWithParams_args_witness :
    buildQueryWithParams stdQuery pgExtContext "SELECT * FROM t" "t" "tl"
        [⟨"k", "=", ["v", "w"], .LabelQuery⟩, ⟨"f", "notin", ["x", "y"], .FieldQuery⟩] =
      GoResult.ok ("SELECT * FROM t WHERE tl.key = $1 AND tl.val = $2 AND t.f NOT IN ($3, $4);",
        [Arg.str "k", Arg.str "v", Arg.str "x", Arg.str "y"]) ∧
    [Arg.str "k", Arg.str "v", Arg.str "x", Arg.str "y"] =
      (([⟨"k", "=", ["v", "w"], .LabelQuery⟩, ⟨"f", "notin", ["x", "y"], .FieldQuery⟩] :
        List Criterion).map (fun c =>
        ((if c.Typ = CriterionType.LabelQuery then [c.LeftOp] else []) ++
          (if stdQuery.IsMultiVariate c.Operator then c.RightOp else c.RightOp.take 1)).map
            Arg.str)).flatten :=
  ⟨by decide,
   (buildQueryWithParams_args stdQuery pgExtContext "SELECT * FROM t" "t" "tl"
      [⟨"k", "=", ["v", "w"], .LabelQuery⟩, ⟨"f", "notin", ["x", "y"], .FieldQuery⟩]
      (by decide)).1
      "SELECT * FROM t WHERE tl.key = $1 AND tl.val = $2 AND t.f NOT IN ($3, $4);"
      [Arg.str "k", Arg.str "v", Arg.str "x", Arg.str "y"] (by decide)⟩

/-! ## The compiler: positional markers and totality -/

/-- C17 as stated fails: with a query, table names and a field name free of `?`, an
operator whose token holds a `?` puts a second marker into the clause, so the returned
query has the markers `$1` and `$2` for a single argument; and an input query that
already holds the text `$2` returns with the markers `$2`, `$1` for a single argument. -/
theorem markers_differ_from_args :
    (NoMark "SELECT * FROM t" ∧ NoMark "t" ∧ NoMark "tl" ∧ NoMark "tags" ∧
      buildQueryWithParams stdQuery pgExtContext "SELECT * FROM t" "t" "tl"
          [⟨"tags", "?", ["x"], CriterionType.FieldQuery⟩] =
        GoResult.ok ("SELECT * FROM t WHERE t.tags $1 $2;", [Arg.str "x"]) ∧
      readMarkers "SELECT * FROM t WHERE t.tags $1 $2;".data = ["1".data, "2".data]) ∧
    (NoMark "SELECT * FROM t JOIN u ON u.id = $2" ∧ NoMark "t" ∧ NoMark "tl" ∧ NoMark "f" ∧
      buildQueryWithParams stdQuery pgExtContext "SELECT * FROM t JOIN u ON u.id = $2" "t" "tl"
          [⟨"f", "=", ["v"], CriterionType.FieldQuery⟩] =
        GoResult.ok ("SELECT * FROM t JOIN u ON u.id = $2 WHERE t.f = $1;", [Arg.str "v"]) ∧
      readMarkers "SELECT * FROM t JOIN u ON u.id = $2 WHERE t.f = $1;".data =
        ["2".data, "1".data]) := by
  decide

/-- C17 (amended): for a non-empty criteria list in which each criterion has at least
one right-operand value, when the input query and the table names, field names and
operator translations spliced into the clauses contain neither `?` nor `$`, the
positional markers of the query returned under the postgres rebind, read in order of
appearance, are `$1`, ..., `$n` with n the length of the returned argument list: as many
markers as arguments, numbered consecutively.  The query is the text built before the
rebind, which has n markers `?`, with the j-th `?` replaced by `$j`. -/
theorem buildQueryWithParams_markers (Q : QueryPkg)
    (sqlQuery baseTable labelTable : String) (criteria : List Criterion)
    (hne : criteria ≠ []) (hinv : ∀ c ∈ criteria, c.RightOp ≠ [])
    (hq : NoMark sqlQuery) (hc : ∀ c ∈ criteria, MarkFree Q baseTable labelTable c)
    (hdq : NoDollar sqlQuery) (hdc : ∀ c ∈ criteria, DollarFree Q baseTable labelTable c) :
    ∃ query args,
      buildQueryWithParams Q pgExtContext sqlQuery baseTable labelTable criteria =
        GoResult.ok (query, args) ∧
      readMarkers query.data =
        (List.range args.length).map (fun i => (Nat.repr (i + 1)).data) ∧
      (readMarkers query.data).length = args.length ∧
      ∃ text,
        (∀ extContext : ExtContext,
          buildQueryWithParams Q extContext sqlQuery baseTable labelTable criteria =
            GoResult.ok (extContext.Rebind text, args)) ∧
        text.data.count '?' = args.length ∧
        query = String.mk (numbered 0 (splitMarks text.data)) ∧
        (splitMarks text.data).length = args.length + 1 ∧
        (∀ p ∈ splitMarks text.data, '?' ∉ p ∧ '$' ∉ p) := by
  have hall : ∀ c ∈ criteria, c.RightOp ≠ [] ∧ MarkFree Q baseTable labelTable c :=
    fun c h => ⟨hinv c h, hc c h⟩
  have hok := fun extContext => buildQueryWithParams_ok Q extContext sqlQuery baseTable
    labelTable criteria hne hinv (fun _ => ⟨hq, hc⟩)
  have hcount := count_expanded_text Q sqlQuery baseTable labelTable criteria hq hall
  have hfol := marksFollowed_text Q sqlQuery baseTable labelTable criteria hq hall
  have hdol := noDollar_text Q sqlQuery baseTable labelTable criteria hdq hdc
  have hlen := splitMarks_length (sqlQuery ++ " WHERE " ++
      (stringsJoin (criteria.map (specExpandedClause Q baseTable labelTable)) " AND " ++
        ";")).data
  rw [hcount] at hlen
  have hpd : ∀ p ∈ splitMarks (sqlQuery ++ " WHERE " ++
      (stringsJoin (criteria.map (specExpandedClause Q baseTable labelTable)) " AND " ++
        ";")).data, '$' ∉ p :=
    fun p hp hx => hdol (splitMarks_sub _ p hp '$' hx)
  have hread := readMarkers_numbered _ 0 hpd (marksFollowed_pieces _ hfol)
  rw [hlen] at hread
  simp only [Nat.add_sub_cancel, Nat.zero_add] at hread
  have hpg : buildQueryWithParams Q pgExtContext sqlQuery baseTable labelTable criteria =
      GoResult.ok (String.mk (numbered 0 (splitMarks (sqlQuery ++ " WHERE " ++
        (stringsJoin (criteria.map (specExpandedClause Q baseTable labelTable)) " AND " ++
          ";")).data)), (criteria.map (specFlatArgs Q)).flatten) := by
    rw [hok pgExtContext]
    simp only [pgExtContext, rebindFrom_eq_numbered]
  refine ⟨_, _, hpg, hread, ?_, _, hok, hcount, rfl, hlen, ?_⟩
  · rw [hread]; simp
  · intro p hp
    exact ⟨splitMarks_no_mark _ p hp, hpd p hp⟩

theorem buildQueryWithParams_markers_witness :
    NoMark "SELECT * FROM t" ∧ NoDollar "SELECT * FROM t" ∧
    buildQueryWithParams stdQuery pgExtContext "SELECT * FROM t" "t" "tl"
        [⟨"k", "=", ["v"], .LabelQuery⟩, ⟨"f", "in", ["x", "y"], .FieldQuery⟩] =
      GoResult.ok ("SELECT * FROM t WHERE tl.key = $1 AND tl.val = $2 AND t.f IN ($3, $4);",
        [Arg.str "k", Arg.str "v", Arg.str "x", Arg.str "y"]) ∧
    readMarkers "SELECT * FROM t WHERE tl.key = $1 AND tl.val = $2 AND t.f IN ($3, $4);".data =
      ["1".data, "2".data, "3".data, "4".data] ∧
    ∃ query args,
      buildQueryWithParams stdQuery pgExtContext "SELECT * FROM t" "t" "tl"
          [⟨"k", "=", ["v"], .LabelQuery⟩, ⟨"f", "in", ["x", "y"], .FieldQuery⟩] =
        GoResult.ok (query, args) ∧
      readMarkers query.data =
        (List.range args.length).map (fun i => (Nat.repr (i + 1)).data) ∧
      (readMarkers query.data).length = args.length ∧
      ∃ text,
        (∀ extContext : ExtContext,
          buildQueryWithParams stdQuery extContext "SELECT * FROM t" "t" "tl"
              [⟨"k", "=", ["v"], .LabelQuery⟩, ⟨"f", "in", ["x", "y"], .FieldQuery⟩] =
            GoResult.ok (extContext.Rebind text, args)) ∧
        text.data.count '?' = args.length ∧
        query = String.mk (numbered 0 (splitMarks text.data)) ∧
        (splitMarks text.data).length = args.length + 1 ∧
        (∀ p ∈ splitMarks text.data, '?' ∉ p ∧ '$' ∉ p) :=
  ⟨by decide, by decide, by decide, by decide,
   buildQueryWithParams_markers stdQuery "SELECT * FROM t" "t" "tl"
     [⟨"k", "=", ["v"], .LabelQuery⟩, ⟨"f", "in", ["x", "y"], .FieldQuery⟩]
     (by decide) (by decide) (by decide) (by decide) (by decide) (by decide)⟩

/-- C18 as stated fails: every criterion has a right-operand value and the table and
field names hold no `?`, yet a `?` in the input query makes the multi-value expansion
report a mismatch and `buildQueryWithParams` return an error. -/
theorem expansion_fails_with_mark_in_query :
    (∀ c ∈ ([⟨"a", "in", ["x"], CriterionType.FieldQuery⟩] : List Criterion),
      1 ≤ c.RightOp.length) ∧
    NoMark "t" ∧ NoMark "tl" ∧ NoMark "a" ∧
    buildQueryWithParams stdQuery pgExtContext "SELECT ? FROM t" "t" "tl"
        [⟨"a", "in", ["x"], CriterionType.FieldQuery⟩] =
      GoResult.err "number of bindVars exceeds arguments" := by
  decide

/-- C18 (amended): for a criteria list in which each criterion has at least one
right-operand value, `buildRightOp` never indexes `RightOp` out of range, and when
neither the input query nor the table names, field names and operator translations
spliced into the clauses contain a `?` (or when no operator is multi-variate)
`buildQueryWithParams` returns without error: the multi-value expansion reports neither
a marker/argument mismatch nor an empty list. -/
theorem buildQueryWithParams_no_error (Q : QueryPkg) (extContext : ExtContext)
    (sqlQuery baseTable labelTable : String) (criteria : List Criterion)
    (hinv : ∀ c ∈ criteria, c.RightOp ≠ [])
    (hmark : hasMultiVariateOp Q criteria = true →
      NoMark sqlQuery ∧ ∀ c ∈ criteria, MarkFree Q baseTable labelTable c) :
    (∀ c ∈ criteria, ∃ bindVar rhs, buildRightOp Q c = some (bindVar, rhs)) ∧
    (∃ q ps, buildQueryWithParams Q extContext sqlQuery baseTable labelTable criteria =
      GoResult.ok (q, ps)) ∧
    (hasMultiVariateOp Q criteria = true →
      ∃ text params q ps,
        assembleQuery Q sqlQuery baseTable labelTable criteria = some (text, params) ∧
        sqlxIn text params = .ok (q, ps)) := by
  refine ⟨?_, ?_, ?_⟩
  · intro c hcm
    have hR := hinv c hcm
    cases hr : c.RightOp with
    | nil => exact absurd hr hR
    | cons r0 rs =>
      by_cases hm : Q.IsMultiVariate c.Operator = true
      · exact ⟨"(?)", Arg.strs (r0 :: rs), by simp [buildRightOp, hr, hm]⟩
      · exact ⟨"?", Arg.str r0, by simp [buildRightOp, hr, hm]⟩
  · cases criteria with
    | nil => exact ⟨_, _, buildQuery_nil Q extContext sqlQuery baseTable labelTable⟩
    | cons c cs =>
      exact ⟨_, _, buildQueryWithParams_ok Q extContext sqlQuery baseTable labelTable (c :: cs)
        (by simp) hinv hmark⟩
  · intro hm
    obtain ⟨hq, hc⟩ := hmark hm
    exact ⟨_, _, _, _, assembleQuery_eq Q sqlQuery baseTable labelTable criteria hinv,
      sqlxIn_assembled Q sqlQuery baseTable labelTable criteria hq
        (fun c h => ⟨hinv c h, hc c h⟩) hm⟩

theorem buildQueryWithParams_no_error_witness :
    hasMultiVariateOp stdQuery
      [⟨"k", "=", ["v"], .LabelQuery⟩, ⟨"f", "notin", ["x", "y"], .FieldQuery⟩] = true ∧
    NoMark "SELECT * FROM t" ∧
    ∃ q ps, buildQueryWithParams stdQuery pgExtContext "SELECT * FROM t" "t" "tl"
      [⟨"k", "=", ["v"], .LabelQuery⟩, ⟨"f", "notin", ["x", "y"], .FieldQuery⟩] =
        GoResult.ok (q, ps) :=
  ⟨by decide, by decide,
   (buildQueryWithParams_no_error stdQuery pgExtContext "SELECT * FROM t" "t" "tl"
     [⟨"k", "=", ["v"], .LabelQuery⟩, ⟨"f", "notin", ["x", "y"], .FieldQuery⟩]
     (by decide) (fun _ => ⟨by decide, by decide⟩)).2.1⟩

/-! ## The label store -/

/-- C1 (the code departs from it): `removeLabel` with the two values a, b executes a DELETE
whose IN list is the single marker `$3`, not expanded, so the statement has three
markers while four arguments are passed. -/
theorem removeLabel_two_values_one_marker :
    (removeLabel scriptedEnv (newLabelRow "" "" "") "ref-1" "k" ["a", "b"] ⟨[], []⟩).2.log =
      [Executed.exec "DELETE FROM labels WHERE key=$1 AND ref_id=$2 AND val IN ($3)"
        [Arg.str "k", Arg.str "ref-1", Arg.str "a", Arg.str "b"] (.ok 1)] ∧
    "DELETE FROM labels WHERE key=$1 AND ref_id=$2 AND val IN ($3)".data.count '$' = 3 ∧
    [Arg.str "k", Arg.str "ref-1", Arg.str "a", Arg.str "b"].length = 4 := by
  refine ⟨rfl, by decide, rfl⟩

/-- C10: `updateLabelsAbstract` processes the actions in input order (after a prefix that
succeeded it continues with the rest from the state the prefix left); when the action
at some index fails it returns that action's error and the state that action left, so no
statement of a later action is executed; when the last statement an action issued
reported an error, exactly that error is returned (a failed action that has no failing
statement failed in identifier generation); and it returns no error if and only if
every action succeeded. -/
theorem updateLabelsAbstract_ordered_abort {σ L R : Type} (env : LabelEnv σ L R)
    (newLabelFunc : String → String → String → L) (referenceID : String)
    (actions : List LabelChange) (w : World σ L R) :
    (∀ pre post w1, actions = pre ++ post →
      updateLabelsAbstract env newLabelFunc referenceID pre w = (.ok (), w1) →
      updateLabelsAbstract env newLabelFunc referenceID actions w =
        updateLabelsAbstract env newLabelFunc referenceID post w1) ∧
    (∀ pre a post w1 e w2, actions = pre ++ a :: post →
      updateLabelsAbstract env newLabelFunc referenceID pre w = (.ok (), w1) →
      applyAction env newLabelFunc referenceID a w1 = (.error e, w2) →
      updateLabelsAbstract env newLabelFunc referenceID actions w = (.error e, w2)) ∧
    (∀ pre a post w1 r w2 before last e, actions = pre ++ a :: post →
      updateLabelsAbstract env newLabelFunc referenceID pre w = (.ok (), w1) →
      applyAction env newLabelFunc referenceID a w1 = (r, w2) →
      w2.log = w1.log ++ before ++ [last] → reportedError env last = some e →
      updateLabelsAbstract env newLabelFunc referenceID actions w = (.error e, w2)) ∧
    (∀ a w1 e w2, a ∈ actions →
      applyAction env newLabelFunc referenceID a w1 = (.error e, w2) →
      ∃ entries, w2.log = w1.log ++ entries ∧
        ((∃ before last, entries = before ++ [last] ∧
            (∀ x ∈ before, reportedError env x = none) ∧ reportedError env last = some e) ∨
         ((∀ x ∈ entries, reportedError env x = none) ∧
            ∃ err, e = "could not generate id for new label: " ++ err))) ∧
    ((updateLabelsAbstract env newLabelFunc referenceID actions w).1 = .ok () ↔
      ∀ (i : Nat) (h : i < actions.length),
        (applyAction env newLabelFunc referenceID (actions.get ⟨i, h⟩)
          (updateLabelsAbstract env newLabelFunc referenceID (actions.take i) w).2).1 =
            .ok ()) := by
  refine ⟨?_, ?_, ?_, ?_, updateLabelsAbstract_ok_iff env newLabelFunc referenceID actions w⟩
  · intro pre post w1 hsplit hpre
    rw [hsplit]
    exact updateLabelsAbstract_append env newLabelFunc referenceID pre post w w1 hpre
  · intro pre a post w1 e w2 hsplit hpre ha
    rw [hsplit]
    exact updateLabelsAbstract_abort env newLabelFunc referenceID pre a post w w1 w2 e hpre ha
  · intro pre a post w1 r w2 before last e hsplit hpre ha hlog hlast
    have hr := applyAction_failing_statement env newLabelFunc referenceID a w1 w2 r before
      last e ha hlog hlast
    rw [hr] at ha
    rw [hsplit]
    exact updateLabelsAbstract_abort env newLabelFunc referenceID pre a post w w1 w2 e hpre ha
  · intro a w1 e w2 _ ha
    obtain ⟨entries, h1, _, herr⟩ := applyAction_traced env newLabelFunc referenceID a w1
    rw [ha] at h1 herr
    exact ⟨entries, h1, herr e rfl⟩

/-- A concrete run for C10: the second action's DELETE fails with "boom"; that error is
returned and the third action's insert is never issued. -/
theorem updateLabelsAbstract_ordered_abort_witness :
    updateLabelsAbstract scriptedEnv newLabelRow "ref-1"
        [⟨.AddLabelOperation, "k", ["v1"]⟩, ⟨.RemoveLabelOperation, "k", []⟩,
         ⟨.AddLabelOperation, "k2", ["v2"]⟩]
        ⟨[none, none, some "boom"], []⟩ =
      (.error "boom",
       ⟨[], [Executed.insert "labels" ⟨"id", "k", "v1"⟩ none,
             Executed.exec "DELETE FROM labels WHERE key=$1 AND ref_id=$2"
               [Arg.str "k", Arg.str "ref-1"] (.error "boom")]⟩) :=
  (updateLabelsAbstract_ordered_abort scriptedEnv newLabelRow "ref-1"
      [⟨.AddLabelOperation, "k", ["v1"]⟩, ⟨.RemoveLabelOperation, "k", []⟩,
       ⟨.AddLabelOperation, "k2", ["v2"]⟩]
      ⟨[none, none, some "boom"], []⟩).2.2.1
    [⟨.AddLabelOperation, "k", ["v1"]⟩] ⟨.RemoveLabelOperation, "k", []⟩
    [⟨.AddLabelOperation, "k2", ["v2"]⟩]
    ⟨[some "boom"], [Executed.insert "labels" ⟨"id", "k", "v1"⟩ none]⟩
    (.error "boom")
    ⟨[], [Executed.insert "labels" ⟨"id", "k", "v1"⟩ none,
          Executed.exec "DELETE FROM labels WHERE key=$1 AND ref_id=$2"
            [Arg.str "k", Arg.str "ref-1"] (.error "boom")]⟩
    [] (Executed.exec "DELETE FROM labels WHERE key=$1 AND ref_id=$2"
            [Arg.str "k", Arg.str "ref-1"] (.error "boom")) "boom"
    rfl rfl rfl rfl rfl

/-- C11: for an Add or AddValues action `addLabel` handles the values in order, each
with one identifier generation, one row-factory call with (generated id, action key,
value) and one insert into that row's label table; when identifier generation or the
insert fails for a value an error is returned and nothing is generated, built or
inserted for the later values; when every step succeeds exactly n identifiers are
generated and n inserts made; Add and AddValues do the same. -/
theorem addLabel_per_value {σ L R : Type} (env : LabelEnv σ L R)
    (newLabelFunc : String → String → String → L) (referenceID key : String)
    (values : List String) (w : World σ L R) :
    (∀ (v : String) (rest : List String) (w0 : World σ L R),
      addLabel env newLabelFunc key (v :: rest) w0 =
        match env.NewV4 w0.db with
        | (.error err, db1) =>
          (.error ("could not generate id for new label: " ++ err), ⟨db1, w0.log⟩)
        | (.ok labelID, db1) =>
          match env.create (env.Label (newLabelFunc labelID key v)).1
              (newLabelFunc labelID key v) db1 with
          | (.error err, db2) =>
            (.error err, ⟨db2, w0.log ++
              [Executed.insert (env.Label (newLabelFunc labelID key v)).1
                (newLabelFunc labelID key v) (some err)]⟩)
          | (.ok _, db2) =>
            addLabel env newLabelFunc key rest
              ⟨db2, w0.log ++ [Executed.insert (env.Label (newLabelFunc labelID key v)).1
                (newLabelFunc labelID key v) none]⟩) ∧
    ((addLabel env newLabelFunc key values w).1 = .ok () →
      ∃ ids, ids.length = values.length ∧
        (addLabel env newLabelFunc key values w).2.log =
          w.log ++ insertsOf env newLabelFunc key ids values ∧
        (insertsOf env newLabelFunc key ids values).length = values.length ∧
        (addLabel (countingEnv env) newLabelFunc key values ⟨(w.db, 0), w.log⟩).2.db.2 =
          values.length) ∧
    (∀ e, (addLabel env newLabelFunc key values w).1 = .error e →
      ∃ done v later ids, values = done ++ v :: later ∧ ids.length = done.length ∧
        (addLabel (countingEnv env) newLabelFunc key values ⟨(w.db, 0), w.log⟩).2.db.2 =
          done.length + 1 ∧
        (((addLabel env newLabelFunc key values w).2.log =
            w.log ++ insertsOf env newLabelFunc key ids done ∧
            ∃ err, e = "could not generate id for new label: " ++ err) ∨
         (∃ id, (addLabel env newLabelFunc key values w).2.log =
            w.log ++ insertsOf env newLabelFunc key ids done ++
              [Executed.insert (env.Label (newLabelFunc id key v)).1
                (newLabelFunc id key v) (some e)]))) ∧
    (applyAction env newLabelFunc referenceID ⟨LabelOperation.AddLabelOperation, key, values⟩ w =
        addLabel env newLabelFunc key values w ∧
      applyAction env newLabelFunc referenceID
          ⟨LabelOperation.AddLabelValuesOperation, key, values⟩ w =
        addLabel env newLabelFunc key values w) := by
  obtain ⟨s1, _, s3⟩ := addLabel_counting_sim env newLabelFunc key values w 0
  obtain ⟨hok, herr⟩ := addLabel_counting_run env newLabelFunc key values ⟨(w.db, 0), w.log⟩
  refine ⟨fun v rest w0 => addLabel_cons env newLabelFunc key v rest w0, ?_, ?_, rfl, rfl⟩
  · intro h
    rw [← s1] at h
    obtain ⟨ids, h1, h2, h3⟩ := hok h
    refine ⟨ids, h1, ?_, ?_, ?_⟩
    · rw [← s3, h2]
    · simp [insertsOf, h1]
    · rw [h3]; simp
  · intro e h
    rw [← s1] at h
    obtain ⟨done, v, later, ids, h1, h2, h3, h4⟩ := herr e h
    refine ⟨done, v, later, ids, h1, h2, ?_, ?_⟩
    · rw [h3]; simp
    · rw [← s3]; exact h4

/-- A concrete run for C11: two values, every step succeeds, two inserts in order. -/
theorem addLabel_per_value_witness :
    (addLabel scriptedEnv newLabelRow "k" ["v1", "v2"] ⟨[], []⟩).1 = .ok () ∧
    ∃ ids, ids.length = (["v1", "v2"] : List String).length ∧
      (addLabel scriptedEnv newLabelRow "k" ["v1", "v2"] ⟨[], []⟩).2.log =
        [] ++ insertsOf scriptedEnv newLabelRow "k" ids ["v1", "v2"] ∧
      (insertsOf scriptedEnv newLabelRow "k" ids ["v1", "v2"]).length =
        (["v1", "v2"] : List String).length ∧
      (addLabel (countingEnv scriptedEnv) newLabelRow "k" ["v1", "v2"] ⟨([], 0), []⟩).2.db.2 =
        (["v1", "v2"] : List String).length :=
  ⟨rfl, (addLabel_per_value scriptedEnv newLabelRow "ref-1" "k" ["v1", "v2"] ⟨[], []⟩).2.1 rfl⟩

/-- C12: `removeLabel` called with no values executes exactly one statement,
`DELETE FROM T WHERE key=$1 AND C=$2`, with the arguments key and referenceID in that
order, and no condition on the label value. -/
theorem removeLabel_no_values {σ L R : Type} (env : LabelEnv σ L R) (labelable : L)
    (T C P : String) (hL : env.Label labelable = (T, C, P)) (k r : String)
    (w : World σ L R) :
    removeLabel env labelable r k [] w =
      execute env ("DELETE FROM " ++ T ++ " WHERE key=$1 AND " ++ C ++ "=$2")
        [Arg.str k, Arg.str r] w ∧
    (removeLabel env labelable r k [] w).2.log =
      w.log ++ [Executed.exec ("DELETE FROM " ++ T ++ " WHERE key=$1 AND " ++ C ++ "=$2")
        [Arg.str k, Arg.str r]
        (env.ExecContext ("DELETE FROM " ++ T ++ " WHERE key=$1 AND " ++ C ++ "=$2")
          [Arg.str k, Arg.str r] w.db).1] ∧
    (removeLabel env labelable r k [] w).2.db =
      (env.ExecContext ("DELETE FROM " ++ T ++ " WHERE key=$1 AND " ++ C ++ "=$2")
          [Arg.str k, Arg.str r] w.db).2 := by
  have h := removeLabel_nil env labelable r k w
  rw [hL] at h
  simp only at h
  refine ⟨h, ?_, ?_⟩
  · rw [h, execute_log]
  · rw [h]
    unfold execute
    cases env.ExecContext ("DELETE FROM " ++ T ++ " WHERE key=$1 AND " ++ C ++ "=$2")
      [Arg.str k, Arg.str r] w.db with
    | mk res db1 => cases res <;> rfl

theorem removeLabel_no_values_witness :
    scriptedEnv.Label (newLabelRow "" "" "") = ("labels", "ref_id", "id") ∧
    (removeLabel scriptedEnv (newLabelRow "" "" "") "ref-1" "k" [] ⟨[], []⟩).2.log =
      [] ++ [Executed.exec ("DELETE FROM " ++ "labels" ++ " WHERE key=$1 AND " ++ "ref_id" ++ "=$2")
        [Arg.str "k", Arg.str "ref-1"]
        (scriptedEnv.ExecContext
          ("DELETE FROM " ++ "labels" ++ " WHERE key=$1 AND " ++ "ref_id" ++ "=$2")
          [Arg.str "k", Arg.str "ref-1"] []).1] :=
  ⟨rfl, (removeLabel_no_values scriptedEnv (newLabelRow "" "" "") "labels" "ref_id" "id" rfl
    "k" "ref-1" ⟨[], []⟩).2.1⟩

/-- C13: when the delete statement issued by `removeLabel` executes without a hard
failure and affects zero rows, `removeLabel` returns success, and so does
`updateLabelsAbstract` for a Remove or RemoveValues action. -/
theorem removeLabel_zero_rows {σ L : Type} (env : LabelEnv σ L SqlResult)
    (hcheck : env.checkRowsAffected = specCheckRowsAffected)
    (newLabelFunc : String → String → String → L) (referenceID key : String)
    (values : List String) (w : World σ L SqlResult) (query : String) (args : List Arg)
    (result : SqlResult)
    (hlog : (removeLabel env (newLabelFunc "" "" "") referenceID key values w).2.log =
      w.log ++ [Executed.exec query args (.ok result)])
    (hzero : result.RowsAffected = .ok 0) :
    (removeLabel env (newLabelFunc "" "" "") referenceID key values w).1 = .ok () ∧
    (updateLabelsAbstract env newLabelFunc referenceID
      [⟨LabelOperation.RemoveLabelOperation, key, values⟩] w).1 = .ok () ∧
    (updateLabelsAbstract env newLabelFunc referenceID
      [⟨LabelOperation.RemoveLabelValuesOperation, key, values⟩] w).1 = .ok () := by
  have hrem : (removeLabel env (newLabelFunc "" "" "") referenceID key values w).1 = .ok () := by
    cases values with
    | nil =>
      rw [removeLabel_nil] at hlog ⊢
      exact execute_zero_rows env hcheck _ _ w query args result hlog hzero
    | cons v vs =>
      rw [removeLabel_values env _ referenceID key (v :: vs) (by simp) w] at hlog ⊢
      exact execute_zero_rows env hcheck _ _ w query args result hlog hzero
  refine ⟨hrem, ?_, ?_⟩
  · simp only [updateLabelsAbstract, applyAction]
    cases h : removeLabel env (newLabelFunc "" "" "") referenceID key values w with
    | mk r w1 =>
      rw [h] at hrem
      simp only at hrem
      subst hrem
      rfl
  · simp only [updateLabelsAbstract, applyAction]
    cases h : removeLabel env (newLabelFunc "" "" "") referenceID key values w with
    | mk r w1 =>
      rw [h] at hrem
      simp only at hrem
      subst hrem
      rfl

theorem removeLabel_zero_rows_witness :
    (removeLabel storeEnv (newStoredLabel "ref-1" "" "" "") "ref-1" "k" [] ⟨⟨[], 0⟩, []⟩).2.log =
      [] ++ [Executed.exec "DELETE FROM labels WHERE key=$1 AND ref_id=$2"
        [Arg.str "k", Arg.str "ref-1"] (.ok ⟨.ok 0⟩)] ∧
    (updateLabelsAbstract storeEnv (newStoredLabel "ref-1") "ref-1"
      [⟨LabelOperation.RemoveLabelOperation, "k", []⟩] ⟨⟨[], 0⟩, []⟩).1 = .ok () :=
  ⟨rfl, (removeLabel_zero_rows storeEnv rfl (newStoredLabel "ref-1") "ref-1" "k" []
    ⟨⟨[], 0⟩, []⟩ "DELETE FROM labels WHERE key=$1 AND ref_id=$2"
    [Arg.str "k", Arg.str "ref-1"] ⟨.ok 0⟩ rfl rfl).2.1⟩

/-- C16: starting from a store without label row for (referenceID, k, v1),
`updateLabelsAbstract` on [Add k v1, RemoveValues k {v1}] succeeds and leaves no label
row for v1, while on [RemoveValues k {v1}, Add k v1] it succeeds and leaves the row
present. -/
theorem updateLabelsAbstract_order_matters (s : Store) (referenceID k v1 : String)
    (h : s.hasRow referenceID k v1 = false) :
    (updateLabelsAbstract storeEnv (newStoredLabel referenceID) referenceID
        [⟨LabelOperation.AddLabelOperation, k, [v1]⟩,
         ⟨LabelOperation.RemoveLabelValuesOperation, k, [v1]⟩] ⟨s, []⟩).1 = .ok () ∧
    (updateLabelsAbstract storeEnv (newStoredLabel referenceID) referenceID
        [⟨LabelOperation.AddLabelOperation, k, [v1]⟩,
         ⟨LabelOperation.RemoveLabelValuesOperation, k, [v1]⟩] ⟨s, []⟩).2.db.hasRow
          referenceID k v1 = false ∧
    (updateLabelsAbstract storeEnv (newStoredLabel referenceID) referenceID
        [⟨LabelOperation.RemoveLabelValuesOperation, k, [v1]⟩,
         ⟨LabelOperation.AddLabelOperation, k, [v1]⟩] ⟨s, []⟩).1 = .ok () ∧
    (updateLabelsAbstract storeEnv (newStoredLabel referenceID) referenceID
        [⟨LabelOperation.RemoveLabelValuesOperation, k, [v1]⟩,
         ⟨LabelOperation.AddLabelOperation, k, [v1]⟩] ⟨s, []⟩).2.db.hasRow
          referenceID k v1 = true := by
  have e1 : updateLabelsAbstract storeEnv (newStoredLabel referenceID) referenceID
      [⟨LabelOperation.AddLabelOperation, k, [v1]⟩,
       ⟨LabelOperation.RemoveLabelValuesOperation, k, [v1]⟩] ⟨s, []⟩ =
      removeLabel storeEnv (newStoredLabel referenceID "" "" "") referenceID k [v1]
        (addLabel storeEnv (newStoredLabel referenceID) k [v1] ⟨s, []⟩).2 := by
    simp only [updateLabelsAbstract, applyAction, storeEnv_add s referenceID k v1 [] h,
      storeEnv_remove_value]
  have e2 : updateLabelsAbstract storeEnv (newStoredLabel referenceID) referenceID
      [⟨LabelOperation.RemoveLabelValuesOperation, k, [v1]⟩,
       ⟨LabelOperation.AddLabelOperation, k, [v1]⟩] ⟨s, []⟩ =
      addLabel storeEnv (newStoredLabel referenceID) k [v1]
        (removeLabel storeEnv (newStoredLabel referenceID "" "" "") referenceID k [v1]
          ⟨s, []⟩).2 := by
    simp only [updateLabelsAbstract, applyAction, storeEnv_remove_value,
      storeEnv_add _ referenceID k v1 _ (hasRow_filter_not s.rows s.nextID referenceID k v1)]
  rw [e1, e2]
  simp only [storeEnv_add s referenceID k v1 [] h, storeEnv_remove_value,
    storeEnv_add _ referenceID k v1 _ (hasRow_filter_not s.rows s.nextID referenceID k v1)]
  exact ⟨trivial, hasRow_filter_not _ _ referenceID k v1, trivial,
    hasRow_append_self _ _ referenceID _ k v1⟩

theorem updateLabelsAbstract_order_matters_witness :
    Store.hasRow ⟨[⟨"id-0", "k", "other", "ref-1"⟩], 1⟩ "ref-1" "k" "v1" = false ∧
    (updateLabelsAbstract storeEnv (newStoredLabel "ref-1") "ref-1"
        [⟨LabelOperation.AddLabelOperation, "k", ["v1"]⟩,
         ⟨LabelOperation.RemoveLabelValuesOperation, "k", ["v1"]⟩]
        ⟨⟨[⟨"id-0", "k", "other", "ref-1"⟩], 1⟩, []⟩).2.db.hasRow "ref-1" "k" "v1" = false ∧
    (updateLabelsAbstract storeEnv (newStoredLabel "ref-1") "ref-1"
        [⟨LabelOperation.RemoveLabelValuesOperation, "k", ["v1"]⟩,
         ⟨LabelOperation.AddLabelOperation, "k", ["v1"]⟩]
        ⟨⟨[⟨"id-0", "k", "other", "ref-1"⟩], 1⟩, []⟩).2.db.hasRow "ref-1" "k" "v1" = true :=
  have h := updateLabelsAbstract_order_matters ⟨[⟨"id-0", "k", "other", "ref-1"⟩], 1⟩
    "ref-1" "k" "v1" (by decide)
  ⟨by decide, h.2.1, h.2.2.2⟩

/-- C19: the choice between delete-all-for-key and delete-by-value-set depends only on
whether the value list is empty, not on the operation: a RemoveLabelValuesOperation and
a RemoveLabelOperation with the same key and values do the same; without values both
issue `DELETE ... WHERE key=$1 AND <ref>=$2` with key and referenceID, with values both
issue the statement with the value test and key, referenceID and the values. -/
theorem applyAction_remove_by_values_only {σ L R : Type} (env : LabelEnv σ L R)
    (newLabelFunc : String → String → String → L) (referenceID key : String)
    (values : List String) (w : World σ L R) :
    applyAction env newLabelFunc referenceID
        ⟨LabelOperation.RemoveLabelValuesOperation, key, values⟩ w =
      applyAction env newLabelFunc referenceID
        ⟨LabelOperation.RemoveLabelOperation, key, values⟩ w ∧
    applyAction env newLabelFunc referenceID
        ⟨LabelOperation.RemoveLabelValuesOperation, key, []⟩ w =
      execute env ("DELETE FROM " ++ (env.Label (newLabelFunc "" "" "")).1 ++
          " WHERE key=$1 AND " ++ (env.Label (newLabelFunc "" "" "")).2.1 ++ "=$2")
        [Arg.str key, Arg.str referenceID] w ∧
    (values ≠ [] →
      applyAction env newLabelFunc referenceID
          ⟨LabelOperation.RemoveLabelOperation, key, values⟩ w =
        execute env ("DELETE FROM " ++ (env.Label (newLabelFunc "" "" "")).1 ++
            " WHERE key=$1 AND " ++ (env.Label (newLabelFunc "" "" "")).2.1 ++ "=$2" ++
            " AND val IN ($3)")
          ([Arg.str key, Arg.str referenceID] ++ values.map Arg.str) w) ∧
    (∀ pre post : List LabelChange,
      updateLabelsAbstract env newLabelFunc referenceID
          (pre ++ ⟨LabelOperation.RemoveLabelValuesOperation, key, values⟩ :: post) w =
        updateLabelsAbstract env newLabelFunc referenceID
          (pre ++ ⟨LabelOperation.RemoveLabelOperation, key, values⟩ :: post) w) := by
  refine ⟨rfl, ?_, ?_, ?_⟩
  · simp only [applyAction]
    exact removeLabel_nil env _ referenceID key w
  · intro hne
    simp only [applyAction]
    exact removeLabel_values env _ referenceID key values hne w
  · intro pre post
    exact updateLabelsAbstract_congr env newLabelFunc referenceID
      ⟨LabelOperation.RemoveLabelValuesOperation, key, values⟩
      ⟨LabelOperation.RemoveLabelOperation, key, values⟩ (fun _ => rfl) post pre w

/-! ## The cascade resolver -/

/-- C14: the mapping returned by `GetChildrenCriterion` has, under ServiceBindingType,
exactly one criterion: a FieldQuery with the equals operator, left operand
"service_instance_id" and the parent's ID as single right-operand value, whatever the
parent label key. -/
theorem GetChildrenCriterion_binding (T : TypesPkg) (Q : QueryPkg)
    (si : ServiceInstanceCascade) (hT : T.ServiceBindingType ≠ T.ServiceInstanceType) :
    GetChildrenCriterion T Q si T.ServiceBindingType =
      some [⟨"service_instance_id", Q.EqualsOperator, [si.Instance.ID],
        CriterionType.FieldQuery⟩] := by
  unfold GetChildrenCriterion
  by_cases hk : si.parentInstanceLabelKey.length > 0
  · simp [hk, mapSet, hT, ByField]
  · simp [hk, mapSet, ByField]

theorem GetChildrenCriterion_binding_witness :
    stdTypes.ServiceBindingType ≠ stdTypes.ServiceInstanceType ∧
    GetChildrenCriterion stdTypes stdQuery ⟨⟨"inst-1"⟩, "parent_id"⟩ "ServiceBinding" =
      some [⟨"service_instance_id", "=", ["inst-1"], CriterionType.FieldQuery⟩] :=
  ⟨by decide, GetChildrenCriterion_binding stdTypes stdQuery ⟨⟨"inst-1"⟩, "parent_id"⟩
    (by decide)⟩

/-- C15: the mapping returned by `GetChildrenCriterion` has a ServiceInstanceType entry
if and only if the parent label key is not empty; that entry is exactly one LabelQuery
criterion with the equals operator, the label key as left operand and the parent's ID
as right-operand value; with an empty key the mapping has the ServiceBindingType entry
only, with a non-empty key these two entries only. -/
theorem GetChildrenCriterion_self (T : TypesPkg) (Q : QueryPkg)
    (si : ServiceInstanceCascade) (hT : T.ServiceBindingType ≠ T.ServiceInstanceType) :
    (GetChildrenCriterion T Q si T.ServiceInstanceType ≠ none ↔
      si.parentInstanceLabelKey ≠ "") ∧
    (si.parentInstanceLabelKey ≠ "" →
      GetChildrenCriterion T Q si T.ServiceInstanceType =
        some [⟨si.parentInstanceLabelKey, Q.EqualsOperator, [si.Instance.ID],
          CriterionType.LabelQuery⟩]) ∧
    (si.parentInstanceLabelKey = "" →
      ∀ t, GetChildrenCriterion T Q si t ≠ none → t = T.ServiceBindingType) ∧
    (∀ t, GetChildrenCriterion T Q si t ≠ none →
      t = T.ServiceBindingType ∨ t = T.ServiceInstanceType) := by
  have hlen := nonempty_iff_length_pos si.parentInstanceLabelKey
  unfold GetChildrenCriterion
  by_cases hk : si.parentInstanceLabelKey.length > 0
  · have hne := hlen.1 hk
    simp only [hk, if_true]
    refine ⟨?_, ?_, ?_, ?_⟩
    · simp [mapSet, hne]
    · intro _; simp [mapSet, ByLabel]
    · intro h; exact absurd h hne
    · intro t ht
      by_cases h1 : t = T.ServiceInstanceType
      · exact Or.inr h1
      · by_cases h2 : t = T.ServiceBindingType
        · exact Or.inl h2
        · simp [mapSet, h1, h2] at ht
  · have he : si.parentInstanceLabelKey = "" := by
      by_contra hne
      exact hk (hlen.2 hne)
    simp only [hk, if_false]
    refine ⟨?_, ?_, ?_, ?_⟩
    · simp [mapSet, he, Ne.symm hT]
    · intro h; exact absurd he h
    · intro _ t ht
      by_contra h2
      simp [mapSet, h2] at ht
    · intro t ht
      by_cases h2 : t = T.ServiceBindingType
      · exact Or.inl h2
      · simp [mapSet, h2] at ht

theorem GetChildrenCriterion_self_witness :
    stdTypes.ServiceBindingType ≠ stdTypes.ServiceInstanceType ∧
    GetChildrenCriterion stdTypes stdQuery ⟨⟨"inst-1"⟩, "parent_id"⟩ "ServiceInstance" =
      some [⟨"parent_id", "=", ["inst-1"], CriterionType.LabelQuery⟩] :=
  ⟨by decide, (GetChildrenCriterion_self stdTypes stdQuery ⟨⟨"inst-1"⟩, "parent_id"⟩
    (by decide)).2.1 (by decide)⟩

end ServiceManager
